import Mathlib

/-!
Verification of the EMechanical physics/selection/update subsystem.

The development shallowly embeds the core model of the repository:
the `Joiner` (node) class with its selection state machine and motion
channels, the `Beam` force classifier, the `NodeManager` collections with
cascading deletion, the pick-event handler of `Page.mouseClickEventHandler`,
and the `PhysicsEngine` analysis routines (center of gravity, equilibrium
check, reaction-force solver).

Conventions:
* JavaScript `THREE.Vector3` is embedded as `Vec3 α`, with `α = ℚ` for the
  exact state/physics computations and `α = ℝ` where the source uses
  `normalize`/`Math.PI` (square roots and π).
* JS object identity (used by `indexOf`/`===`) is represented by an `id`
  field; uniqueness of ids in a collection is the Nodup hypothesis.
* `vector.length() === 0` in the source is embedded as equality with the
  zero vector, and `vector.length() < c` (`c > 0`) as `lengthSq < c ^ 2`;
  both are exactly equivalent for real (and exact-rational) arithmetic.
-/

/-- Three-component vector, the embedding of `THREE.Vector3`. -/
structure Vec3 (α : Type) where
  x : α
  y : α
  z : α
deriving DecidableEq, Repr

namespace Vec3

variable {α : Type} [Field α]

/-- `v.add(w)` componentwise. -/
def add (v w : Vec3 α) : Vec3 α := ⟨v.x + w.x, v.y + w.y, v.z + w.z⟩

/-- `new THREE.Vector3().subVectors(v, w)` componentwise. -/
def sub (v w : Vec3 α) : Vec3 α := ⟨v.x - w.x, v.y - w.y, v.z - w.z⟩

/-- `v.negate()` componentwise. -/
def neg (v : Vec3 α) : Vec3 α := ⟨-v.x, -v.y, -v.z⟩

/-- `v.multiplyScalar(s)`. -/
def smul (s : α) (v : Vec3 α) : Vec3 α := ⟨s * v.x, s * v.y, s * v.z⟩

/-- `v.divideScalar(s)` (multiplication by the inverse, as in three.js). -/
def divScalar (v : Vec3 α) (s : α) : Vec3 α := smul s⁻¹ v

/-- `v.dot(w)`. -/
def dot (v w : Vec3 α) : α := v.x * w.x + v.y * w.y + v.z * w.z

/-- `new THREE.Vector3().crossVectors(v, w)`. -/
def cross (v w : Vec3 α) : Vec3 α :=
  ⟨v.y * w.z - v.z * w.y, v.z * w.x - v.x * w.z, v.x * w.y - v.y * w.x⟩

/-- `v.lengthSq()`, the squared Euclidean norm. -/
def lengthSq (v : Vec3 α) : α := v.x * v.x + v.y * v.y + v.z * v.z

/-- `v.lerp(target, alpha)`: each component moves by `alpha` of the gap. -/
def lerp (v target : Vec3 α) (alpha : α) : Vec3 α :=
  add v (smul alpha (sub target v))

/-- The zero vector `new THREE.Vector3(0, 0, 0)`. -/
def zero : Vec3 α := ⟨0, 0, 0⟩

/-- Sum of a list of vectors (a `forEach`-accumulated `.add`). -/
def sum (l : List (Vec3 α)) : Vec3 α := l.foldr add zero

end Vec3

/-- The `Joiner` (node) entity: selection state plus engineering state.
Field `id` stands for JS object identity (see the header comment). -/
structure Joiner (α : Type) where
  id : Nat
  isSelected : Bool
  selectedIndex : Nat
  radius : α
  mass : α
  position : Vec3 α
  force : Vec3 α
  acceleration : Vec3 α
  velocity : Vec3 α
  isFixed : Bool
deriving DecidableEq, Repr

namespace Joiner

/-- `Joiner.unselect`: clears the selection state (the transform-controls
detach and panel/label hiding have no model state). -/
def unselect {α : Type} (n : Joiner α) : Joiner α :=
  { n with isSelected := false, selectedIndex := 0 }

/-- `Joiner.select(transformControls, allowMultiple)`: sets `isSelected`,
increments `selectedIndex`, then pops the selection back off when it
exceeds 2, or exceeds 1 without `allowMultiple`. -/
def select {α : Type} (allowMultiple : Bool) (n : Joiner α) : Joiner α :=
  let n := { n with isSelected := true, selectedIndex := n.selectedIndex + 1 }
  if n.selectedIndex > 2 then n.unselect
  else if n.selectedIndex > 1 ∧ allowMultiple = false then n.unselect
  else n

end Joiner

/-- Replace the element at position `i` by `f` applied to it (the effect of
calling a mutating method on the `i`-th object of a JS array). -/
def updateIdx {α : Type} : Nat → (α → α) → List α → List α
  | _, _, [] => []
  | 0, f, a :: as => f a :: as
  | n + 1, f, a :: as => a :: updateIdx n f as

theorem updateIdx_nil {α : Type} (i : Nat) (f : α → α) : updateIdx i f [] = [] := by
  cases i <;> rfl

theorem getElem?_updateIdx {α : Type} (i j : Nat) (f : α → α) (l : List α) :
    (updateIdx i f l)[j]? = if j = i then (l[j]?).map f else l[j]? := by
  induction l generalizing i j with
  | nil => simp [updateIdx_nil]
  | cons a as ih =>
    cases i with
    | zero =>
      cases j with
      | zero => simp [updateIdx]
      | succ j => simp [updateIdx]
    | succ i =>
      cases j with
      | zero => simp [updateIdx]
      | succ j =>
        simp only [updateIdx, List.getElem?_cons_succ, ih i j]
        by_cases h : j = i <;> simp [h]

theorem mem_updateIdx {α : Type} {x : α} {f : α → α} :
    ∀ (l : List α) (i : Nat), x ∈ updateIdx i f l → x ∈ l ∨ ∃ a ∈ l, x = f a := by
  intro l
  induction l with
  | nil => intro i hx; simp [updateIdx_nil] at hx
  | cons a as ih =>
    intro i hx
    cases i with
    | zero =>
      rcases List.mem_cons.mp hx with hx | hx
      · exact Or.inr ⟨a, List.mem_cons_self a as, hx⟩
      · exact Or.inl (List.mem_cons_of_mem a hx)
    | succ i =>
      rcases List.mem_cons.mp hx with hx | hx
      · exact Or.inl (hx ▸ List.mem_cons_self a as)
      · rcases ih i hx with h | ⟨b, hb, hb2⟩
        · exact Or.inl (List.mem_cons_of_mem a h)
        · exact Or.inr ⟨b, List.mem_cons_of_mem a hb, hb2⟩

theorem countP_updateIdx_le {α : Type} (p : α → Bool) (i : Nat) (f : α → α)
    (l : List α) : (updateIdx i f l).countP p ≤ l.countP p + 1 := by
  induction l generalizing i with
  | nil => simp [updateIdx_nil]
  | cons a as ih =>
    cases i with
    | zero =>
      simp only [updateIdx, List.countP_cons]
      by_cases h1 : p (f a) <;> by_cases h2 : p a <;> simp [h1, h2] <;> omega
    | succ i =>
      simp only [updateIdx, List.countP_cons]
      have := ih i
      by_cases h2 : p a <;> simp [h2] <;> omega

theorem countP_updateIdx_le_of {α : Type} {p : α → Bool} {f : α → α} :
    ∀ (l : List α), (∀ a ∈ l, p (f a) → p a) → ∀ (i : Nat),
    (updateIdx i f l).countP p ≤ l.countP p := by
  intro l
  induction l with
  | nil => intro _ i; simp [updateIdx_nil]
  | cons a as ih =>
    intro h i
    cases i with
    | zero =>
      simp only [updateIdx, List.countP_cons]
      by_cases h1 : p (f a)
      · have h2 : p a := h a (List.mem_cons_self a as) h1
        simp [h1, h2]
      · by_cases h2 : p a <;> simp [h1, h2] <;> omega
    | succ i =>
      simp only [updateIdx, List.countP_cons]
      have := ih (fun b hb => h b (List.mem_cons_of_mem _ hb)) i
      omega

/-! ### Selection state machine

`Page.mouseClickEventHandler` (src/world/page.js): a click resolves to a
node (or to empty space) together with the Ctrl-modifier state.  Every
currently selected node receives `select(controls, multi)`, then the
clicked node receives `select(controls, multi)` as well. -/

/-- The `forEach` over `selectedNodes` in the click handler: every selected
node gets `select(transformControls, multi)` applied; others are untouched. -/
def bumpSelected {α : Type} (multi : Bool) (s : List (Joiner α)) : List (Joiner α) :=
  s.map fun n => if n.isSelected then Joiner.select multi n else n

/-- Click on the node at position `i` of the nodes array with modifier
`multi` (both branches of the handler have this shape). -/
def pickNode {α : Type} (i : Nat) (multi : Bool) (s : List (Joiner α)) : List (Joiner α) :=
  updateIdx i (Joiner.select multi) (bumpSelected multi s)

/-- Click on empty space: only `selectedNodes.forEach(select(controls, false))`. -/
def pickEmpty {α : Type} (s : List (Joiner α)) : List (Joiner α) :=
  bumpSelected false s

/-- `NodeManager.createNode(position)`: appends a fresh, unselected node
(`new Joiner(position)`; `id` models the fresh object reference). -/
def createNode (i : Nat) (p : Vec3 ℚ) (s : List (Joiner ℚ)) : List (Joiner ℚ) :=
  s ++ [{ id := i, isSelected := false, selectedIndex := 0, radius := 0.015,
          mass := 100, position := p, force := Vec3.zero,
          acceleration := Vec3.zero, velocity := Vec3.zero, isFixed := false }]

/-- A direct `node.select(transformControls, multi)` call on node `i`. -/
def selectOp {α : Type} (i : Nat) (multi : Bool) (s : List (Joiner α)) : List (Joiner α) :=
  updateIdx i (Joiner.select multi) s

/-- A direct `node.unselect(transformControls)` call on node `i`. -/
def unselectOp {α : Type} (i : Nat) (s : List (Joiner α)) : List (Joiner α) :=
  updateIdx i Joiner.unselect s

/-- States reachable from the empty structure by node creation, pick events
and arbitrary `select`/`unselect` calls (the claim's transition set). -/
inductive ReachSel : List (Joiner ℚ) → Prop
  | empty : ReachSel []
  | create (i : Nat) (p : Vec3 ℚ) {s : List (Joiner ℚ)} :
      ReachSel s → ReachSel (createNode i p s)
  | pickNodeStep (i : Nat) (multi : Bool) {s : List (Joiner ℚ)} :
      ReachSel s → ReachSel (pickNode i multi s)
  | pickEmptyStep {s : List (Joiner ℚ)} : ReachSel s → ReachSel (pickEmpty s)
  | selectStep (i : Nat) (multi : Bool) {s : List (Joiner ℚ)} :
      ReachSel s → ReachSel (selectOp i multi s)
  | unselectStep (i : Nat) {s : List (Joiner ℚ)} :
      ReachSel s → ReachSel (unselectOp i s)

/-- States reachable when `select` is only ever invoked through the click
handler (pick events), while `unselect` may also be called directly. -/
inductive ReachHandler : List (Joiner ℚ) → Prop
  | empty : ReachHandler []
  | create (i : Nat) (p : Vec3 ℚ) {s : List (Joiner ℚ)} :
      ReachHandler s → ReachHandler (createNode i p s)
  | pickNodeStep (i : Nat) (multi : Bool) {s : List (Joiner ℚ)} :
      ReachHandler s → ReachHandler (pickNode i multi s)
  | pickEmptyStep {s : List (Joiner ℚ)} : ReachHandler s → ReachHandler (pickEmpty s)
  | unselectStep (i : Nat) {s : List (Joiner ℚ)} :
      ReachHandler s → ReachHandler (unselectOp i s)

/-- `selectedIndex = 1` as a countable predicate. -/
def slot1 {α : Type} (n : Joiner α) : Bool := n.selectedIndex == 1

/-- `selectedIndex = 2` as a countable predicate. -/
def slot2 {α : Type} (n : Joiner α) : Bool := n.selectedIndex == 2

/-- `selectedIndex ∈ {1,2}` as a countable predicate. -/
def slotAny {α : Type} (n : Joiner α) : Bool := slot1 n || slot2 n

/-- The selection invariant exactly as the specification states it. -/
def SelClaimInv {α : Type} (s : List (Joiner α)) : Prop :=
  (∀ n ∈ s, 0 < n.selectedIndex ↔ n.isSelected = true) ∧
  (s.countP slotAny = 0 ∨ s.countP slotAny = 1 ∨ s.countP slotAny = 2) ∧
  (s.countP slotAny = 2 → s.countP slot1 = 1 ∧ s.countP slot2 = 1)

/-- Strengthened inductive invariant: selection flags coherent, indices at
most 2, and each of the two slots occupied at most once. -/
def SelInv {α : Type} (s : List (Joiner α)) : Prop :=
  (∀ n ∈ s, (n.isSelected = true ↔ 0 < n.selectedIndex) ∧ n.selectedIndex ≤ 2) ∧
  s.countP slot1 ≤ 1 ∧ s.countP slot2 ≤ 1

theorem countP_slotAny_split {α : Type} (s : List (Joiner α)) :
    s.countP slotAny = s.countP slot1 + s.countP slot2 := by
  induction s with
  | nil => rfl
  | cons a t ih =>
    have h12 : ¬(slot1 a = true ∧ slot2 a = true) := by
      simp only [slot1, slot2, beq_iff_eq]
      omega
    simp only [List.countP_cons, ih, slotAny]
    by_cases h1 : slot1 a
    · have h2 : ¬slot2 a = true := fun hh => h12 ⟨h1, hh⟩
      simp only [h1, h2]
      simp only [Bool.true_or, if_true, if_false, eq_self_iff_true]
      simp
      omega
    · by_cases h2 : slot2 a
      · simp only [h1, h2]
        simp
        omega
      · simp only [h1, h2]
        simp

theorem SelInv.claimInv {α : Type} {s : List (Joiner α)} (h : SelInv s) :
    SelClaimInv s := by
  obtain ⟨hpt, h1, h2⟩ := h
  refine ⟨fun n hn => (hpt n hn).1.symm, ?_, ?_⟩
  · have := countP_slotAny_split s
    omega
  · intro hc
    have := countP_slotAny_split s
    omega

theorem select_ptwise {α : Type} (m : Bool) (n : Joiner α) :
    ((Joiner.select m n).isSelected = true ↔ 0 < (Joiner.select m n).selectedIndex) ∧
    (Joiner.select m n).selectedIndex ≤ 2 := by
  simp only [Joiner.select, Joiner.unselect]
  split
  · simp
  · split
    · simp
    · simp_all

theorem select_at0 {α : Type} (m : Bool) (n : Joiner α) (h : n.selectedIndex = 0) :
    Joiner.select m n = { n with isSelected := true, selectedIndex := 1 } := by
  simp [Joiner.select, Joiner.unselect, h]

theorem select_at1_multi {α : Type} (n : Joiner α) (h : n.selectedIndex = 1) :
    Joiner.select true n = { n with isSelected := true, selectedIndex := 2 } := by
  simp [Joiner.select, Joiner.unselect, h]

theorem select_at1_single {α : Type} (n : Joiner α) (h : n.selectedIndex = 1) :
    Joiner.select false n = { n with isSelected := false, selectedIndex := 0 } := by
  simp [Joiner.select, Joiner.unselect, h]

theorem select_at2 {α : Type} (m : Bool) (n : Joiner α) (h : n.selectedIndex = 2) :
    Joiner.select m n = { n with isSelected := false, selectedIndex := 0 } := by
  simp [Joiner.select, Joiner.unselect, h]

theorem inv_idx_cases {α : Type} {a : Joiner α}
    (hiff : a.isSelected = true ↔ 0 < a.selectedIndex) (hle : a.selectedIndex ≤ 2) :
    (a.isSelected = false ∧ a.selectedIndex = 0) ∨
    (a.isSelected = true ∧ a.selectedIndex = 1) ∨
    (a.isSelected = true ∧ a.selectedIndex = 2) := by
  by_cases hs : a.isSelected
  · have hpos := hiff.mp hs
    have h12 : a.selectedIndex = 1 ∨ a.selectedIndex = 2 := by omega
    rcases h12 with h | h
    · exact Or.inr (Or.inl ⟨hs, h⟩)
    · exact Or.inr (Or.inr ⟨hs, h⟩)
  · have hz : a.selectedIndex = 0 := by
      have : ¬0 < a.selectedIndex := fun hpos => hs (hiff.mpr hpos)
      omega
    exact Or.inl ⟨Bool.not_eq_true a.isSelected ▸ eq_false_of_ne_true hs, hz⟩

theorem bump_false_all_zero {α : Type} {s : List (Joiner α)} (h : SelInv s) :
    ∀ n ∈ bumpSelected false s, n.selectedIndex = 0 ∧ n.isSelected = false := by
  intro n hn
  rcases List.mem_map.mp hn with ⟨a, ha, rfl⟩
  have hpt := h.1 a ha
  rcases inv_idx_cases hpt.1 hpt.2 with ⟨hs, h0⟩ | ⟨hs, h1⟩ | ⟨hs, h2⟩
  · simp [hs, h0]
  · simp [hs, select_at1_single a h1]
  · simp [hs, select_at2 false a h2]

theorem bump_true_slot1_zero {α : Type} {s : List (Joiner α)} (h : SelInv s) :
    (bumpSelected true s).countP slot1 = 0 := by
  rw [bumpSelected, List.countP_map, List.countP_eq_zero]
  intro a ha
  have hpt := h.1 a ha
  rcases inv_idx_cases hpt.1 hpt.2 with ⟨hs, h0⟩ | ⟨hs, h1⟩ | ⟨hs, h2⟩
  · simp [Function.comp, hs, slot1, h0]
  · simp [Function.comp, hs, select_at1_multi a h1, slot1]
  · simp [Function.comp, hs, select_at2 true a h2, slot1]

theorem bump_true_slot2_le {α : Type} {s : List (Joiner α)} (h : SelInv s) :
    (bumpSelected true s).countP slot2 ≤ s.countP slot1 := by
  rw [bumpSelected, List.countP_map]
  refine List.countP_mono_left ?_
  intro a ha hcomp
  have hpt := h.1 a ha
  rcases inv_idx_cases hpt.1 hpt.2 with ⟨hs, h0⟩ | ⟨hs, h1⟩ | ⟨hs, h2⟩
  · simp [Function.comp, hs, slot2, h0] at hcomp
  · simp [slot1, h1]
  · simp [Function.comp, hs, select_at2 true a h2, slot2] at hcomp

theorem bump_ptwise {α : Type} {s : List (Joiner α)} (h : SelInv s) (m : Bool) :
    ∀ n ∈ bumpSelected m s,
      (n.isSelected = true ↔ 0 < n.selectedIndex) ∧ n.selectedIndex ≤ 2 := by
  intro n hn
  rcases List.mem_map.mp hn with ⟨a, ha, rfl⟩
  by_cases hs : a.isSelected
  · simpa [hs] using select_ptwise m a
  · simpa [hs] using h.1 a ha

theorem SelInv_pickNode {s : List (Joiner ℚ)} (h : SelInv s) (i : Nat) (m : Bool) :
    SelInv (pickNode i m s) := by
  refine ⟨?_, ?_, ?_⟩
  · intro n hn
    rcases mem_updateIdx _ _ hn with hmem | ⟨a, _, rfl⟩
    · exact bump_ptwise h m n hmem
    · exact select_ptwise m a
  · cases m
    · calc (pickNode i false s).countP slot1
          ≤ (bumpSelected false s).countP slot1 + 1 := countP_updateIdx_le _ _ _ _
        _ ≤ 1 := by
            have hz : (bumpSelected false s).countP slot1 = 0 := by
              rw [List.countP_eq_zero]
              intro a ha
              have := (bump_false_all_zero h a ha).1
              simp [slot1, this]
            omega
    · calc (pickNode i true s).countP slot1
          ≤ (bumpSelected true s).countP slot1 + 1 := countP_updateIdx_le _ _ _ _
        _ ≤ 1 := by rw [bump_true_slot1_zero h]
  · cases m
    · have hz : (bumpSelected false s).countP slot2 = 0 := by
        rw [List.countP_eq_zero]
        intro a ha
        have := (bump_false_all_zero h a ha).1
        simp [slot2, this]
      have hstep : (pickNode i false s).countP slot2 ≤ (bumpSelected false s).countP slot2 := by
        refine countP_updateIdx_le_of _ ?_ i
        intro a ha hsel2
        have h0 : a.selectedIndex = 0 := (bump_false_all_zero h a ha).1
        simp [select_at0 false a h0, slot2] at hsel2
      omega
    · have hstep : (pickNode i true s).countP slot2 ≤ (bumpSelected true s).countP slot2 := by
        refine countP_updateIdx_le_of _ ?_ i
        intro a ha hsel2
        have hno1 : ¬slot1 a = true := by
          have hz := bump_true_slot1_zero h
          rw [List.countP_eq_zero] at hz
          exact hz a ha
        have hle : a.selectedIndex ≤ 2 := (bump_ptwise h true a ha).2
        have hcase : a.selectedIndex = 0 ∨ a.selectedIndex = 2 := by
          simp only [slot1, beq_iff_eq] at hno1
          omega
        rcases hcase with h0 | h2
        · simp [select_at0 true a h0, slot2] at hsel2
        · simp [select_at2 true a h2, slot2] at hsel2
      have hb := bump_true_slot2_le h
      have hc := h.2.1
      omega

theorem SelInv_pickEmpty {s : List (Joiner ℚ)} (h : SelInv s) :
    SelInv (pickEmpty s) := by
  refine ⟨fun n hn => bump_ptwise h false n hn, ?_, ?_⟩
  · have hz : (pickEmpty s).countP slot1 = 0 := by
      rw [List.countP_eq_zero]
      intro a ha
      have := (bump_false_all_zero h a ha).1
      simp [slot1, this]
    omega
  · have hz : (pickEmpty s).countP slot2 = 0 := by
      rw [List.countP_eq_zero]
      intro a ha
      have := (bump_false_all_zero h a ha).1
      simp [slot2, this]
    omega

theorem SelInv_unselectOp {s : List (Joiner ℚ)} (h : SelInv s) (i : Nat) :
    SelInv (unselectOp i s) := by
  refine ⟨?_, ?_, ?_⟩
  · intro n hn
    rcases mem_updateIdx _ _ hn with hmem | ⟨a, _, rfl⟩
    · exact h.1 n hmem
    · simp [Joiner.unselect]
  · show (updateIdx i Joiner.unselect s).countP slot1 ≤ 1
    have hle := countP_updateIdx_le_of (p := slot1) (f := Joiner.unselect) s
      (by intro a _ hc; simp [Joiner.unselect, slot1] at hc) i
    have := h.2.1
    omega
  · show (updateIdx i Joiner.unselect s).countP slot2 ≤ 1
    have hle := countP_updateIdx_le_of (p := slot2) (f := Joiner.unselect) s
      (by intro a _ hc; simp [Joiner.unselect, slot2] at hc) i
    have := h.2.2
    omega

theorem SelInv_createNode {s : List (Joiner ℚ)} (h : SelInv s) (i : Nat) (p : Vec3 ℚ) :
    SelInv (createNode i p s) := by
  refine ⟨?_, ?_, ?_⟩
  · intro n hn
    rcases List.mem_append.mp hn with hmem | hmem
    · exact h.1 n hmem
    · simp at hmem
      simp [hmem]
  · rw [createNode, List.countP_append]
    have := h.2.1
    simp [slot1]
    omega
  · rw [createNode, List.countP_append]
    have := h.2.2
    simp [slot2]
    omega

theorem SelInv_of_ReachHandler {s : List (Joiner ℚ)} (h : ReachHandler s) : SelInv s := by
  induction h with
  | empty => exact ⟨by simp, by simp, by simp⟩
  | create i p _ ih => exact SelInv_createNode ih i p
  | pickNodeStep i multi _ ih => exact SelInv_pickNode ih i multi
  | pickEmptyStep _ ih => exact SelInv_pickEmpty ih
  | unselectStep i _ ih => exact SelInv_unselectOp ih i

/-! ### Claim C2: the selection invariant -/

instance {α : Type} [DecidableEq α] (s : List (Joiner α)) : Decidable (SelClaimInv s) := by
  unfold SelClaimInv
  infer_instance

/-- A state obtained by creating three nodes, Ctrl-clicking two of them, and
then invoking `select(controls, true)` directly on the third. -/
def selThreeState : List (Joiner ℚ) :=
  selectOp 2 true (pickNode 1 true (pickNode 0 true
    (createNode 2 Vec3.zero (createNode 1 Vec3.zero (createNode 0 Vec3.zero [])))))

/-- C2 (counterexample): with direct `select`/`unselect` operations admitted
as transitions, the selection invariant fails: after Ctrl-clicking nodes 0
and 1 and then calling `select(controls, true)` on node 2, three nodes have
`selectedIndex ∈ {1,2}` (indices 2, 1, 1). -/
theorem selection_invariant_select_counterexample :
    ReachSel selThreeState ∧ ¬SelClaimInv selThreeState := by
  constructor
  · exact ReachSel.selectStep 2 true (ReachSel.pickNodeStep 1 true
      (ReachSel.pickNodeStep 0 true (ReachSel.create 2 Vec3.zero
        (ReachSel.create 1 Vec3.zero (ReachSel.create 0 Vec3.zero ReachSel.empty)))))
  · decide

/-- C2 (amended): in every state reachable from the empty structure by node
creation, pick events (clicks with or without the Ctrl modifier) and direct
`unselect` calls — with `select` invoked only through the click handler —
each node satisfies `selectedIndex > 0 ↔ isSelected`, the number of nodes
with `selectedIndex ∈ {1,2}` is 0, 1 or 2, and when it is 2 the indices are
exactly one 1 and one 2. -/
theorem selection_invariant_handler_reachable {s : List (Joiner ℚ)}
    (h : ReachHandler s) : SelClaimInv s :=
  (SelInv_of_ReachHandler h).claimInv

/-- Witness for `selection_invariant_handler_reachable` at a concrete
two-click trace. -/
theorem selection_invariant_handler_reachable_witness :
    SelClaimInv (pickNode 1 true (pickNode 0 true
      (createNode 1 Vec3.zero (createNode 0 Vec3.zero [])))) :=
  selection_invariant_handler_reachable
    (ReachHandler.pickNodeStep 1 true (ReachHandler.pickNodeStep 0 true
      (ReachHandler.create 1 Vec3.zero (ReachHandler.create 0 Vec3.zero ReachHandler.empty))))

/-! ### Claim C9: Ctrl-clicking an already-selected node -/

/-- The reachable state with two selected nodes: node 0 in slot 2 and
node 1 in slot 1 (Ctrl-click node 0, then Ctrl-click node 1). -/
def twoSelectedState : List (Joiner ℚ) :=
  pickNode 1 true (pickNode 0 true (createNode 1 Vec3.zero (createNode 0 Vec3.zero [])))

/-- C9 (counterexample): in the reachable state with nodes 0 (slot 2) and 1
(slot 1) both selected, Ctrl-clicking the already-selected node 0 leaves it
selected (it is re-selected into slot 1), instead of deselecting it. -/
theorem multiSelect_toggle_counterexample :
    ReachHandler twoSelectedState ∧
    (twoSelectedState[0]?).map Joiner.isSelected = some true ∧
    ((pickNode 0 true twoSelectedState)[0]?).map Joiner.isSelected = some true := by
  refine ⟨?_, by decide, by decide⟩
  exact ReachHandler.pickNodeStep 1 true (ReachHandler.pickNodeStep 0 true
    (ReachHandler.create 1 Vec3.zero (ReachHandler.create 0 Vec3.zero ReachHandler.empty)))

/-- C9 (amended): the exact per-node effect of Ctrl-clicking node `i`.  The
clicked node, when already selected, is deselected if it held slot 1 and is
re-selected into slot 1 if it held slot 2.  Every other node is untouched
when unselected, moved from slot 1 to slot 2 when selected-primary, and
deselected when selected-secondary.  In particular the claimed
"deselect exactly the clicked node" happens only when it is the sole
selected node. -/
theorem multiSelect_click_selected_spec {α : Type} (s : List (Joiner α)) (i : Nat)
    (a : Joiner α) (ha : s[i]? = some a) (hsel : a.isSelected = true) :
    ((a.selectedIndex = 1 → (pickNode i true s)[i]? = some (Joiner.unselect a)) ∧
     (a.selectedIndex = 2 →
       (pickNode i true s)[i]? = some { a with isSelected := true, selectedIndex := 1 })) ∧
    (∀ j, j ≠ i → ∀ b : Joiner α, s[j]? = some b →
      ((b.isSelected = false → (pickNode i true s)[j]? = some b) ∧
       (b.isSelected = true → b.selectedIndex = 1 →
         (pickNode i true s)[j]? = some { b with isSelected := true, selectedIndex := 2 }) ∧
       (b.isSelected = true → b.selectedIndex = 2 →
         (pickNode i true s)[j]? = some (Joiner.unselect b)))) := by
  have hbump : ∀ j : Nat, (bumpSelected true s)[j]? =
      (s[j]?).map fun n => if n.isSelected then Joiner.select true n else n := by
    intro j
    rw [bumpSelected, List.getElem?_map]
  constructor
  · constructor
    · intro h1
      rw [pickNode, getElem?_updateIdx, if_pos rfl, hbump, ha]
      simp only [Option.map_some', hsel, if_true]
      rw [select_at1_multi a h1]
      rw [select_at2 true _ rfl]
      rfl
    · intro h2
      rw [pickNode, getElem?_updateIdx, if_pos rfl, hbump, ha]
      simp only [Option.map_some', hsel, if_true]
      rw [select_at2 true a h2]
      rw [select_at0 true _ rfl]
  · intro j hj b hb
    refine ⟨?_, ?_, ?_⟩
    · intro hun
      rw [pickNode, getElem?_updateIdx, if_neg hj, hbump, hb]
      simp [hun]
    · intro hbs h1
      rw [pickNode, getElem?_updateIdx, if_neg hj, hbump, hb]
      simp only [Option.map_some', hbs, if_true]
      rw [select_at1_multi b h1]
    · intro hbs h2
      rw [pickNode, getElem?_updateIdx, if_neg hj, hbump, hb]
      simp only [Option.map_some', hbs, if_true]
      rw [select_at2 true b h2]
      rfl

/-- A node with the constructor defaults of `new Joiner(position)` at the
origin, with a chosen id and selection state. -/
def plainNode (i : Nat) (sel : Bool) (idx : Nat) : Joiner ℚ :=
  { id := i, isSelected := sel, selectedIndex := idx, radius := 0.015, mass := 100,
    position := Vec3.zero, force := Vec3.zero, acceleration := Vec3.zero,
    velocity := Vec3.zero, isFixed := false }

/-- Witness for `multiSelect_click_selected_spec`: a sole selected node
(slot 1) next to an unselected node; Ctrl-clicking it deselects exactly it. -/
theorem multiSelect_click_selected_spec_witness :
    (pickNode 0 true [plainNode 0 true 1, plainNode 1 false 0])[0]? =
      some (Joiner.unselect (plainNode 0 true 1)) ∧
    (pickNode 0 true [plainNode 0 true 1, plainNode 1 false 0])[1]? =
      some (plainNode 1 false 0) := by
  have h := multiSelect_click_selected_spec [plainNode 0 true 1, plainNode 1 false 0]
    0 (plainNode 0 true 1) rfl rfl
  exact ⟨h.1.1 rfl, (h.2 1 (by decide) (plainNode 1 false 0) rfl).1 rfl⟩

/-! ### Structure manager: nodes, beams, cascading deletion

`NodeManager` (src/models/nodeManager.js): owns `nodes` and `beams`;
`deleteNode` splices the node out (`indexOf` + `splice`) and then deletes
every beam whose `parents[0]`/`parents[1]` is the node. -/

/-- Beam force classification. -/
inductive ForceType where
  | tension
  | compression
  | neutral
deriving DecidableEq, Repr

/-- A material record from the fixed catalog in `Beam.setMaterial`. -/
structure Material (α : Type) where
  name : String
  density : α
  youngsModulus : α
  tensileStrength : α
  compressiveStrength : α
  shearStrength : α
deriving DecidableEq, Repr

/-- The default `Steel` material assigned by the `Beam` constructor. -/
def steel : Material ℚ :=
  { name := "Steel", density := 7850, youngsModulus := 200e9,
    tensileStrength := 400e6, compressiveStrength := 250e6, shearStrength := 150e6 }

/-- The `Beam` entity of src/models/beam.js.  `id` models object identity;
`parents` are the two endpoint nodes (`parents[0]`, `parents[1]`). -/
structure BeamRec (α : Type) where
  id : Nat
  parents : Joiner α × Joiner α
  length : α
  startRadius : α
  endRadius : α
  material : Material α
  stress : α
  strain : α
  forceType : ForceType
  forceValue : α
  isSelected : Bool
  selectedIndex : Nat
deriving DecidableEq, Repr

/-- `new Beam(startNode, endNode)`: the constructor body.  No check rejects
`startNode === endNode`; the beam is always produced. -/
def Beam.construct (i : Nat) (startNode endNode : Joiner ℚ) : BeamRec ℚ :=
  { id := i
    parents := (startNode, endNode)
    length := 0
    startRadius := if startNode.radius > 0 then startNode.radius / 3 else 0.0025
    endRadius := if endNode.radius > 0 then endNode.radius / 3 else 0.0025
    material := steel
    stress := 0
    strain := 0
    forceType := ForceType.neutral
    forceValue := 0
    isSelected := false
    selectedIndex := 0 }

/-- `array.indexOf(x)` followed by `splice(index, 1)`: removes the first
element satisfying `p`, or nothing when none does. -/
def removeFirst {α : Type} (p : α → Bool) : List α → List α
  | [] => []
  | a :: as => if p a then as else a :: removeFirst p as

/-- The `NodeManager` collections. -/
structure NodeManager (α : Type) where
  nodes : List (Joiner α)
  beams : List (BeamRec α)
deriving DecidableEq, Repr

/-- `NodeManager.deleteBeam(beam)`: splice the beam out of `beams`. -/
def NodeManager.deleteBeam {α : Type} (m : NodeManager α) (b : BeamRec α) : NodeManager α :=
  { m with beams := removeFirst (fun x => x.id == b.id) m.beams }

/-- `NodeManager.deleteNode(node)`: splice the node out of `nodes`, collect
`beamsToRemove = beams.filter(parents[0] === node || parents[1] === node)`,
then `deleteBeam` each of them, all within the one operation. -/
def NodeManager.deleteNode {α : Type} (m : NodeManager α) (n : Joiner α) : NodeManager α :=
  let m1 : NodeManager α := { m with nodes := removeFirst (fun x => x.id == n.id) m.nodes }
  let beamsToRemove := m1.beams.filter
    (fun b => b.parents.1.id == n.id || b.parents.2.id == n.id)
  beamsToRemove.foldl (fun acc b => acc.deleteBeam b) m1

theorem removeFirst_subset {α : Type} {p : α → Bool} :
    ∀ (l : List α) (x : α), x ∈ removeFirst p l → x ∈ l := by
  intro l
  induction l with
  | nil => intro x hx; simp [removeFirst] at hx
  | cons a as ih =>
    intro x hx
    by_cases hpa : p a
    · simp only [removeFirst, hpa, if_true] at hx
      exact List.mem_cons_of_mem a hx
    · simp only [removeFirst, if_neg hpa] at hx
      rcases List.mem_cons.mp hx with h | h
      · exact h ▸ List.mem_cons_self a as
      · exact List.mem_cons_of_mem a (ih x h)

theorem mem_removeFirst_of_not {α : Type} {p : α → Bool} :
    ∀ (l : List α) (x : α), x ∈ l → ¬p x = true → x ∈ removeFirst p l := by
  intro l
  induction l with
  | nil => intro x hx; simp at hx
  | cons a as ih =>
    intro x hx hnp
    by_cases hpa : p a
    · simp only [removeFirst, hpa, if_true]
      rcases List.mem_cons.mp hx with h | h
      · exact absurd (h ▸ hpa) hnp
      · exact h
    · simp only [removeFirst, hpa, if_false]
      rcases List.mem_cons.mp hx with h | h
      · exact h ▸ List.mem_cons_self a _
      · exact List.mem_cons_of_mem a (ih x h hnp)

theorem removeFirst_sublist {α : Type} (p : α → Bool) :
    ∀ (l : List α), (removeFirst p l).Sublist l := by
  intro l
  induction l with
  | nil => simp [removeFirst]
  | cons a as ih =>
    by_cases hpa : p a
    · simp only [removeFirst, hpa, if_true]
      exact (List.sublist_cons_self a as)
    · simp only [removeFirst, hpa, if_false]
      exact ih.cons₂ a

theorem removeFirst_key_free {α : Type} {β : Type} [DecidableEq β] (f : α → β) (k : β) :
    ∀ (l : List α), (l.map f).Nodup →
    ∀ x ∈ removeFirst (fun a => f a == k) l, f x ≠ k := by
  intro l
  induction l with
  | nil => intro _ x hx; simp [removeFirst] at hx
  | cons a as ih =>
    intro hnd x hx
    rw [List.map_cons, List.nodup_cons] at hnd
    by_cases hpa : f a == k
    · simp only [removeFirst, hpa, if_true] at hx
      intro hk
      have hfa : f a = k := by simpa using hpa
      exact hnd.1 (hfa ▸ hk ▸ List.mem_map_of_mem f hx)
    · simp only [removeFirst, hpa, if_false] at hx
      rcases List.mem_cons.mp hx with h | h
      · intro hk
        exact hpa (by simpa using (h ▸ hk))
      · exact ih hnd.2 x h

theorem foldl_deleteBeam_beams {α : Type} :
    ∀ (rs : List (BeamRec α)) (m : NodeManager α),
    ((rs.foldl (fun acc b => acc.deleteBeam b) m).nodes = m.nodes ∧
     (rs.foldl (fun acc b => acc.deleteBeam b) m).beams =
       rs.foldl (fun bs b => removeFirst (fun x => x.id == b.id) bs) m.beams) := by
  intro rs
  induction rs with
  | nil => intro m; exact ⟨rfl, rfl⟩
  | cons r rs ih =>
    intro m
    simpa [NodeManager.deleteBeam] using ih { m with
      beams := removeFirst (fun x => x.id == r.id) m.beams }

theorem foldl_removeFirst_clears {α : Type} :
    ∀ (rs bs : List (BeamRec α)),
    (bs.map BeamRec.id).Nodup → (∀ r ∈ rs, r ∈ bs) → (rs.map BeamRec.id).Nodup →
    ∀ x ∈ rs.foldl (fun acc b => removeFirst (fun y => y.id == b.id) acc) bs,
      x ∈ bs ∧ ∀ r ∈ rs, x.id ≠ r.id := by
  intro rs
  induction rs with
  | nil =>
    intro bs _ _ _ x hx
    exact ⟨hx, by simp⟩
  | cons r rs ih =>
    intro bs hnd hsub hrnd x hx
    simp only [List.foldl_cons] at hx
    have hnd' : ((removeFirst (fun y => y.id == r.id) bs).map BeamRec.id).Nodup :=
      ((removeFirst_sublist _ bs).map BeamRec.id).nodup hnd
    have hrnd' : (rs.map BeamRec.id).Nodup := by
      rw [List.map_cons, List.nodup_cons] at hrnd
      exact hrnd.2
    have hsub' : ∀ r' ∈ rs, r' ∈ removeFirst (fun y => y.id == r.id) bs := by
      intro r' hr'
      refine mem_removeFirst_of_not bs r' (hsub r' (List.mem_cons_of_mem r hr')) ?_
      rw [List.map_cons, List.nodup_cons] at hrnd
      intro hbeq
      have : r'.id = r.id := by simpa using hbeq
      exact hrnd.1 (this ▸ List.mem_map_of_mem BeamRec.id hr')
    obtain ⟨hxmem, hxall⟩ := ih (removeFirst (fun y => y.id == r.id) bs) hnd' hsub' hrnd' x hx
    refine ⟨removeFirst_subset bs x hxmem, ?_⟩
    intro r' hr'
    rcases List.mem_cons.mp hr' with h | h
    · exact h ▸ removeFirst_key_free BeamRec.id r.id bs hnd x hxmem
    · exact hxall r' h

/-- C1: after `deleteNode(n)`, `n` is no longer among `nodes` and no beam
whose `parents[0]` or `parents[1]` is `n` remains in `beams`; the cascade is
part of the one `deleteNode` call.  The Nodup hypotheses state that the JS
object references in each collection are pairwise distinct. -/
theorem deleteNode_cascade (m : NodeManager ℚ) (n : Joiner ℚ)
    (hn : (m.nodes.map Joiner.id).Nodup) (hb : (m.beams.map BeamRec.id).Nodup) :
    (∀ x ∈ (m.deleteNode n).nodes, x.id ≠ n.id) ∧
    (∀ b ∈ (m.deleteNode n).beams, b.parents.1.id ≠ n.id ∧ b.parents.2.id ≠ n.id) := by
  have hnodes : (m.deleteNode n).nodes = removeFirst (fun x => x.id == n.id) m.nodes := by
    rw [NodeManager.deleteNode]
    exact (foldl_deleteBeam_beams _ _).1
  have hbeams : (m.deleteNode n).beams =
      (m.beams.filter (fun b => b.parents.1.id == n.id || b.parents.2.id == n.id)).foldl
        (fun bs b => removeFirst (fun x => x.id == b.id) bs) m.beams := by
    rw [NodeManager.deleteNode]
    exact (foldl_deleteBeam_beams _ _).2
  constructor
  · intro x hx
    rw [hnodes] at hx
    exact removeFirst_key_free Joiner.id n.id m.nodes hn x hx
  · intro b hbmem
    rw [hbeams] at hbmem
    have hfsub : ∀ r ∈ m.beams.filter
        (fun b => b.parents.1.id == n.id || b.parents.2.id == n.id), r ∈ m.beams :=
      fun r hr => List.mem_of_mem_filter hr
    have hfnd : ((m.beams.filter
        (fun b => b.parents.1.id == n.id || b.parents.2.id == n.id)).map BeamRec.id).Nodup :=
      ((List.filter_sublist m.beams).map BeamRec.id).nodup hb
    obtain ⟨hbin, hnotin⟩ := foldl_removeFirst_clears _ m.beams hb hfsub hfnd b hbmem
    by_contra hcon
    have hpred : (b.parents.1.id == n.id || b.parents.2.id == n.id) = true := by
      rw [not_and_or] at hcon
      rcases hcon with h | h
      · simp only [not_not] at h
        simp [h]
      · simp only [not_not] at h
        simp [h]
    have hbfil : b ∈ m.beams.filter
        (fun b => b.parents.1.id == n.id || b.parents.2.id == n.id) :=
      List.mem_filter.mpr ⟨hbin, hpred⟩
    exact hnotin b hbfil rfl

/-- Witness for `deleteNode_cascade`: three nodes, two beams touching node 2;
deleting node 2 removes it and both beams. -/
theorem deleteNode_cascade_witness :
    (∀ x ∈ (NodeManager.deleteNode
        { nodes := [plainNode 1 false 0, plainNode 2 false 0, plainNode 3 false 0],
          beams := [Beam.construct 10 (plainNode 1 false 0) (plainNode 2 false 0),
                    Beam.construct 11 (plainNode 2 false 0) (plainNode 3 false 0)] }
        (plainNode 2 false 0)).nodes, x.id ≠ (plainNode 2 false 0).id) ∧
    (∀ b ∈ (NodeManager.deleteNode
        { nodes := [plainNode 1 false 0, plainNode 2 false 0, plainNode 3 false 0],
          beams := [Beam.construct 10 (plainNode 1 false 0) (plainNode 2 false 0),
                    Beam.construct 11 (plainNode 2 false 0) (plainNode 3 false 0)] }
        (plainNode 2 false 0)).beams,
      b.parents.1.id ≠ (plainNode 2 false 0).id ∧ b.parents.2.id ≠ (plainNode 2 false 0).id) :=
  deleteNode_cascade
    { nodes := [plainNode 1 false 0, plainNode 2 false 0, plainNode 3 false 0],
      beams := [Beam.construct 10 (plainNode 1 false 0) (plainNode 2 false 0),
                Beam.construct 11 (plainNode 2 false 0) (plainNode 3 false 0)] }
    (plainNode 2 false 0) (by decide) (by decide)

/-! ### Claim C8: beam creation preconditions

`World.linkSelected` (src/world/World.ts): if exactly two nodes are
selected, `createBeam(node1, node2)` is called and "Connected nodes" is
emitted; otherwise nothing changes and the info panel shows
"Please Ctrl-click to select exactly 2 nodes to connect.". -/

/-- `World.linkSelected()` plus `createBeam` (which pushes the constructed
beam); `freshId` models the new beam object's identity. -/
def linkSelected (freshId : Nat) (m : NodeManager ℚ) : NodeManager ℚ × String :=
  match m.nodes.filter (fun n => n.isSelected) with
  | [node1, node2] =>
      ({ m with beams := m.beams ++ [Beam.construct freshId node1 node2] }, "Connected nodes")
  | _ => (m, "Please Ctrl-click to select exactly 2 nodes to connect.")

/-- C8 (counterexample): the `Beam` constructor accepts identical endpoint
references (nothing rejects `startNode === endNode`), and the failure
message of the link action is "Please Ctrl-click to select exactly 2 nodes
to connect.", not "Please select exactly 2 nodes to connect". -/
theorem beam_preconditions_counterexample :
    (Beam.construct 0 (plainNode 0 false 0) (plainNode 0 false 0)).parents =
      ((plainNode 0 false 0), (plainNode 0 false 0)) ∧
    (linkSelected 0 { nodes := [], beams := [] }).2 =
      "Please Ctrl-click to select exactly 2 nodes to connect." ∧
    "Please Ctrl-click to select exactly 2 nodes to connect." ≠
      "Please select exactly 2 nodes to connect" := by
  refine ⟨rfl, rfl, by decide⟩

/-- C8 (amended): the link action creates a beam exactly when two nodes are
selected — with two selected nodes it appends the beam between them and
emits "Connected nodes", otherwise it is a no-op emitting "Please
Ctrl-click to select exactly 2 nodes to connect." — and the `Beam`
constructor itself performs no endpoint-distinctness check: it returns a
beam with the given parents for every pair, identical endpoints included. -/
theorem linkSelected_spec (freshId : Nat) (m : NodeManager ℚ) :
    (∀ node1 node2, m.nodes.filter (fun n => n.isSelected) = [node1, node2] →
      linkSelected freshId m =
        ({ m with beams := m.beams ++ [Beam.construct freshId node1 node2] },
         "Connected nodes")) ∧
    ((m.nodes.filter (fun n => n.isSelected)).length ≠ 2 →
      linkSelected freshId m =
        (m, "Please Ctrl-click to select exactly 2 nodes to connect.")) ∧
    (∀ i (a b : Joiner ℚ), (Beam.construct i a b).parents = (a, b)) := by
  refine ⟨?_, ?_, fun i a b => rfl⟩
  · intro node1 node2 hfil
    rw [linkSelected, hfil]
  · intro hlen
    rcases hsel : m.nodes.filter (fun n => n.isSelected) with _ | ⟨n1, _ | ⟨n2, _ | ⟨n3, rest⟩⟩⟩
    · rw [linkSelected, hsel]
    · rw [linkSelected, hsel]
    · exact absurd (by rw [hsel]; rfl) hlen
    · rw [linkSelected, hsel]

/-- Witness for `linkSelected_spec`: two selected nodes get connected; with
a single selected node the action is a no-op with the failure message. -/
theorem linkSelected_spec_witness :
    linkSelected 7 { nodes := [plainNode 1 true 1, plainNode 2 true 2], beams := [] } =
      ({ nodes := [plainNode 1 true 1, plainNode 2 true 2],
         beams := [Beam.construct 7 (plainNode 1 true 1) (plainNode 2 true 2)] },
       "Connected nodes") ∧
    linkSelected 7 { nodes := [plainNode 1 true 1], beams := [] } =
      ({ nodes := [plainNode 1 true 1], beams := [] },
       "Please Ctrl-click to select exactly 2 nodes to connect.") := by
  constructor
  · exact (linkSelected_spec 7
      { nodes := [plainNode 1 true 1, plainNode 2 true 2], beams := [] }).1
      (plainNode 1 true 1) (plainNode 2 true 2) rfl
  · exact (linkSelected_spec 7 { nodes := [plainNode 1 true 1], beams := [] }).2.1 (by decide)

/-! ### Node motion: `setForce` and `dampenMotion`

src/models/node.js (`Joiner`): `setForce` copies the new force and, when it
is non-zero, accumulates `acceleration += force / mass` and
`velocity += acceleration * simulationTime`.  `dampenMotion` acts only on
zero-force nodes; note that `frictionAcc.multiplyScalar(deltaTime)` mutates
`frictionAcc` in place, so the subsequent `acceleration.lerp(frictionAcc, …)`
reads the `deltaTime`-scaled vector. -/

/-- `Joiner.setForce(motionVector)` with the global `Utilities.simulationTime`
passed explicitly (its configured default is 1). -/
def Joiner.setForce (simulationTime : ℚ) (motionVector : Vec3 ℚ) (n : Joiner ℚ) : Joiner ℚ :=
  let n1 := { n with force := motionVector }
  if n1.force = Vec3.zero then n1
  else
    let acceleration := Vec3.add n1.acceleration (Vec3.divScalar n1.force n1.mass)
    { n1 with acceleration := acceleration,
              velocity := Vec3.add n1.velocity (Vec3.smul simulationTime acceleration) }

/-- `Joiner.dampenMotion(deltaTime)`: friction constant `k = 1`;
`frictionAcc = velocity * (-k)` is scaled in place by `deltaTime` when it is
added to the velocity, so the acceleration `lerp` target is the scaled
vector; `|velocity| < 0.001` (equivalently `lengthSq < 0.001²`) snaps the
velocity to zero and decays the acceleration toward zero. -/
def Joiner.dampenMotion (deltaTime : ℚ) (n : Joiner ℚ) : Joiner ℚ :=
  if n.force = Vec3.zero then
    let frictionAcc := Vec3.smul (-1) n.velocity
    let frictionAccDt := Vec3.smul deltaTime frictionAcc
    let velocity := Vec3.add n.velocity frictionAccDt
    let arrowDampening : ℚ := 1 / 2
    let acceleration := Vec3.lerp n.acceleration frictionAccDt (arrowDampening * deltaTime)
    if Vec3.lengthSq velocity < (1 / 1000) ^ 2 then
      { n with velocity := Vec3.zero,
               acceleration := Vec3.lerp acceleration Vec3.zero (deltaTime * (1 / 10)) }
    else
      { n with velocity := velocity, acceleration := acceleration }
  else n

/-- Iterated `dampenMotion` calls (one per frame). -/
def dampenIter (dt : ℚ) : Nat → Joiner ℚ → Joiner ℚ
  | 0, n => n
  | k + 1, n => dampenIter dt k (Joiner.dampenMotion dt n)

/-! ### PhysicsEngine (src/components/PhysicsEngine.js) -/

/-- `this.equilibriumTolerance` (N). -/
def equilibriumTolerance : ℚ := 1 / 100

/-- The `forEach`-accumulated total mass. -/
def totalMassOf (nodes : List (Joiner ℚ)) : ℚ := (nodes.map Joiner.mass).sum

/-- The `forEach`-accumulated mass-weighted position sum. -/
def weightedPositionSum (nodes : List (Joiner ℚ)) : Vec3 ℚ :=
  Vec3.sum (nodes.map fun n =>
    ⟨n.position.x * n.mass, n.position.y * n.mass, n.position.z * n.mass⟩)

/-- `PhysicsEngine.calculateCenterOfGravity()`: `(position, totalMass)`;
zero position and mass when there are no nodes, and a `totalMass > 0` guard
before the division. -/
def PhysicsEngine.calculateCenterOfGravity (nodes : List (Joiner ℚ)) : Vec3 ℚ × ℚ :=
  if nodes = [] then (Vec3.zero, 0)
  else
    let totalMass := totalMassOf nodes
    (if totalMass > 0 then Vec3.divScalar (weightedPositionSum nodes) totalMass
     else Vec3.zero, totalMass)

/-- Result record of `PhysicsEngine.checkEquilibrium()`. -/
structure EquilibriumResult where
  isEquilibrium : Bool
  netForce : Vec3 ℚ
  netMoment : Vec3 ℚ
deriving DecidableEq, Repr

/-- `PhysicsEngine.checkEquilibrium()`: net force over all nodes, net moment
about the center of gravity, and the tolerance comparison
(`length < 0.01`, embedded as `lengthSq < 0.01²`). -/
def PhysicsEngine.checkEquilibrium (nodes : List (Joiner ℚ)) : EquilibriumResult :=
  if nodes = [] then { isEquilibrium := true, netForce := Vec3.zero, netMoment := Vec3.zero }
  else
    let netForce := Vec3.sum (nodes.map fun n => n.force)
    let centerOfGravity := (PhysicsEngine.calculateCenterOfGravity nodes).1
    let netMoment := Vec3.sum (nodes.map fun n =>
      Vec3.cross (Vec3.sub n.position centerOfGravity) n.force)
    { isEquilibrium := decide (Vec3.lengthSq netForce < equilibriumTolerance ^ 2 ∧
        Vec3.lengthSq netMoment < equilibriumTolerance ^ 2),
      netForce := netForce, netMoment := netMoment }

/-- Result record of `PhysicsEngine.calculateMissingForces()`. -/
structure MissingForcesResult where
  success : Bool
  message : String
  reactionForce : Vec3 ℚ
  reactionPerNode : Vec3 ℚ
  fixedNodes : List (Joiner ℚ)
deriving DecidableEq, Repr

/-- `PhysicsEngine.calculateMissingForces()`: fails on an empty structure or
when no node is fixed; otherwise the reaction force is the negated net force
of the non-fixed nodes, divided equally among the fixed nodes. -/
def PhysicsEngine.calculateMissingForces (nodes : List (Joiner ℚ)) : MissingForcesResult :=
  if nodes = [] then
    { success := false, message := "No nodes in the system",
      reactionForce := Vec3.zero, reactionPerNode := Vec3.zero, fixedNodes := [] }
  else
    let fixedNodes := nodes.filter fun n => n.isFixed
    if fixedNodes = [] then
      { success := false, message := "No fixed nodes to apply reaction forces",
        reactionForce := Vec3.zero, reactionPerNode := Vec3.zero, fixedNodes := [] }
    else
      let netForce := Vec3.sum ((nodes.filter fun n => !n.isFixed).map fun n => n.force)
      let reactionForce := Vec3.neg netForce
      let reactionPerNode := Vec3.divScalar reactionForce (fixedNodes.length : ℚ)
      { success := true, message := "", reactionForce := reactionForce,
        reactionPerNode := reactionPerNode, fixedNodes := fixedNodes }

/-- The node-state effect of `NodeManager.calculateMissingForces()`: when the
engine call succeeds, every fixed node receives
`setForce(reactionPerNode.clone())` and then `updateAllNodes(0)` runs (each
`update` calls `dampenMotion(0)`).  The subsequent `updateAllBeams(0)` and
`checkEquilibrium()` recompute beam-derived fields and the display only and
touch no node state. -/
def NodeManager.applyMissingForces (simulationTime : ℚ) (nodes : List (Joiner ℚ)) :
    List (Joiner ℚ) × MissingForcesResult :=
  let result := PhysicsEngine.calculateMissingForces nodes
  if result.success then
    let nodes1 := nodes.map fun n =>
      if n.isFixed then Joiner.setForce simulationTime result.reactionPerNode n else n
    (nodes1.map (Joiner.dampenMotion 0), result)
  else (nodes, result)

theorem setForce_force (t : ℚ) (v : Vec3 ℚ) (n : Joiner ℚ) :
    (Joiner.setForce t v n).force = v := by
  rw [Joiner.setForce]
  split
  · rfl
  · rfl

theorem setForce_isFixed (t : ℚ) (v : Vec3 ℚ) (n : Joiner ℚ) :
    (Joiner.setForce t v n).isFixed = n.isFixed := by
  rw [Joiner.setForce]
  split
  · rfl
  · rfl

theorem dampen_force (dt : ℚ) (n : Joiner ℚ) :
    (Joiner.dampenMotion dt n).force = n.force := by
  simp only [Joiner.dampenMotion]
  split
  · split
    · rfl
    · rfl
  · rfl

theorem dampen_isFixed (dt : ℚ) (n : Joiner ℚ) :
    (Joiner.dampenMotion dt n).isFixed = n.isFixed := by
  simp only [Joiner.dampenMotion]
  split
  · split
    · rfl
    · rfl
  · rfl

/-! ### Claim C6: `setForce` semantics -/

/-- C6: `setForce(vector)` replaces the force channel; a non-zero force
additively updates `acceleration += force / mass` and then
`velocity += acceleration * simulationTime` (with the just-updated
acceleration), so repeated calls accumulate — two equal non-zero calls add
`2 * (force / mass)` to the acceleration; a zero force changes nothing
beyond the assignment. -/
theorem setForce_spec (simulationTime : ℚ) (v : Vec3 ℚ) (n : Joiner ℚ)
    (hm : 0 < n.mass) :
    (v ≠ Vec3.zero →
      Joiner.setForce simulationTime v n =
        { n with force := v,
                 acceleration := Vec3.add n.acceleration (Vec3.divScalar v n.mass),
                 velocity := Vec3.add n.velocity (Vec3.smul simulationTime
                   (Vec3.add n.acceleration (Vec3.divScalar v n.mass))) }) ∧
    (v = Vec3.zero → Joiner.setForce simulationTime v n = { n with force := v }) ∧
    (v ≠ Vec3.zero →
      (Joiner.setForce simulationTime v (Joiner.setForce simulationTime v n)).acceleration =
        Vec3.add n.acceleration (Vec3.smul 2 (Vec3.divScalar v n.mass))) := by
  have hpos : ∀ (m : Joiner ℚ), v ≠ Vec3.zero →
      Joiner.setForce simulationTime v m =
        { m with force := v,
                 acceleration := Vec3.add m.acceleration (Vec3.divScalar v m.mass),
                 velocity := Vec3.add m.velocity (Vec3.smul simulationTime
                   (Vec3.add m.acceleration (Vec3.divScalar v m.mass))) } := by
    intro m hv
    rw [Joiner.setForce]
    simp only [if_neg hv]
  refine ⟨hpos n, ?_, ?_⟩
  · intro hv
    rw [Joiner.setForce]
    simp [hv]
  · intro hv
    rw [hpos n hv, hpos _ hv]
    simp only [Vec3.add, Vec3.smul, Vec3.divScalar, Vec3.mk.injEq]
    refine ⟨by ring, by ring, by ring⟩

/-- Witness for `setForce_spec`: a default node (mass 100) receiving force
`(10, 0, 0)` with `simulationTime = 1` gains acceleration and velocity
`(1/10, 0, 0)`. -/
theorem setForce_spec_witness :
    (0 : ℚ) < (plainNode 0 false 0).mass ∧
    Joiner.setForce 1 ⟨10, 0, 0⟩ (plainNode 0 false 0) =
      { plainNode 0 false 0 with force := ⟨10, 0, 0⟩, acceleration := ⟨1 / 10, 0, 0⟩, velocity := ⟨1 / 10, 0, 0⟩ } := by
  have hm : (0 : ℚ) < (plainNode 0 false 0).mass := by norm_num [plainNode]
  have hv : (⟨10, 0, 0⟩ : Vec3 ℚ) ≠ Vec3.zero := by
    intro h
    have := congrArg Vec3.x h
    norm_num [Vec3.zero] at this
  refine ⟨hm, ?_⟩
  rw [(setForce_spec 1 ⟨10, 0, 0⟩ (plainNode 0 false 0) hm).1 hv]
  simp only [plainNode, Vec3.add, Vec3.smul, Vec3.divScalar, Vec3.zero]
  norm_num

/-! ### Claim C4: `calculateMissingForces` -/

/-- C4: the reaction-force solver fails (success = false, descriptive
message, node state untouched) exactly when there are no fixed nodes;
otherwise `reactionForce` is the negated net force of the non-fixed nodes,
`reactionPerNode` divides it by the fixed-node count, and every fixed node
ends up with `force = reactionPerNode` via `setForce`. -/
theorem calculateMissingForces_spec (simulationTime : ℚ) (nodes : List (Joiner ℚ)) :
    ((PhysicsEngine.calculateMissingForces nodes).success = false ↔
      nodes.filter (fun n => n.isFixed) = []) ∧
    (nodes.filter (fun n => n.isFixed) = [] →
      (NodeManager.applyMissingForces simulationTime nodes).1 = nodes ∧
      ((PhysicsEngine.calculateMissingForces nodes).message = "No nodes in the system" ∨
       (PhysicsEngine.calculateMissingForces nodes).message =
         "No fixed nodes to apply reaction forces")) ∧
    (nodes.filter (fun n => n.isFixed) ≠ [] →
      (PhysicsEngine.calculateMissingForces nodes).reactionForce =
        Vec3.neg (Vec3.sum ((nodes.filter fun n => !n.isFixed).map fun n => n.force)) ∧
      (PhysicsEngine.calculateMissingForces nodes).reactionPerNode =
        Vec3.divScalar (PhysicsEngine.calculateMissingForces nodes).reactionForce
          ((nodes.filter fun n => n.isFixed).length : ℚ) ∧
      ∀ x ∈ (NodeManager.applyMissingForces simulationTime nodes).1,
        x.isFixed = true →
          x.force = (PhysicsEngine.calculateMissingForces nodes).reactionPerNode) := by
  by_cases hnil : nodes = []
  · subst hnil
    refine ⟨by simp [PhysicsEngine.calculateMissingForces], ?_, ?_⟩
    · intro _
      exact ⟨rfl, Or.inl rfl⟩
    · intro hne
      exact absurd rfl hne
  · by_cases hfix : nodes.filter (fun n => n.isFixed) = []
    · have hres : PhysicsEngine.calculateMissingForces nodes =
          { success := false, message := "No fixed nodes to apply reaction forces",
            reactionForce := Vec3.zero, reactionPerNode := Vec3.zero, fixedNodes := [] } := by
        rw [PhysicsEngine.calculateMissingForces]
        simp [if_neg hnil, hfix]
      refine ⟨by simp [hres, hfix], ?_, fun hne => absurd hfix hne⟩
      intro _
      constructor
      · rw [NodeManager.applyMissingForces, hres]
        simp
      · rw [hres]
        exact Or.inr rfl
    · have hres : PhysicsEngine.calculateMissingForces nodes =
          { success := true, message := "",
            reactionForce := Vec3.neg (Vec3.sum
              ((nodes.filter fun n => !n.isFixed).map fun n => n.force)),
            reactionPerNode := Vec3.divScalar (Vec3.neg (Vec3.sum
              ((nodes.filter fun n => !n.isFixed).map fun n => n.force)))
              ((nodes.filter fun n => n.isFixed).length : ℚ),
            fixedNodes := nodes.filter fun n => n.isFixed } := by
        rw [PhysicsEngine.calculateMissingForces]
        simp only [if_neg hnil, if_neg hfix]
      refine ⟨by simp [hres, hfix], fun h => absurd h hfix, ?_⟩
      intro _
      refine ⟨by rw [hres], by rw [hres], ?_⟩
      intro x hx hxf
      rw [NodeManager.applyMissingForces] at hx
      simp only [hres, if_pos rfl, eq_self_iff_true, if_true,
        List.map_map, List.mem_map] at hx
      obtain ⟨a, ha, hae⟩ := hx
      subst hae
      simp only [Function.comp] at hxf ⊢
      rw [dampen_force]
      rw [dampen_isFixed] at hxf
      by_cases ha : a.isFixed
      · simp only [ha, if_true] at hxf ⊢
        rw [setForce_force, hres]
      · simp only [ha, if_false] at hxf
        simp [ha] at hxf

/-- Witness for `calculateMissingForces_spec`: two fixed nodes and one free
node carrying force `(10, 0, 0)` produce `reactionForce = (-10, 0, 0)` and
`reactionPerNode = (-5, 0, 0)`, which each fixed node receives as force. -/
theorem calculateMissingForces_spec_witness :
    ([{ plainNode 1 false 0 with isFixed := true },
      { plainNode 2 false 0 with isFixed := true },
      { plainNode 3 false 0 with force := ⟨10, 0, 0⟩ }].filter (fun n => n.isFixed) ≠ []) ∧
    (PhysicsEngine.calculateMissingForces
      [{ plainNode 1 false 0 with isFixed := true },
       { plainNode 2 false 0 with isFixed := true },
       { plainNode 3 false 0 with force := ⟨10, 0, 0⟩ }]).reactionForce = ⟨-10, 0, 0⟩ ∧
    (PhysicsEngine.calculateMissingForces
      [{ plainNode 1 false 0 with isFixed := true },
       { plainNode 2 false 0 with isFixed := true },
       { plainNode 3 false 0 with force := ⟨10, 0, 0⟩ }]).reactionPerNode = ⟨-5, 0, 0⟩ ∧
    (∀ x ∈ (NodeManager.applyMissingForces 1
      [{ plainNode 1 false 0 with isFixed := true },
       { plainNode 2 false 0 with isFixed := true },
       { plainNode 3 false 0 with force := ⟨10, 0, 0⟩ }]).1,
      x.isFixed = true → x.force = ⟨-5, 0, 0⟩) := by
  have hfil : ([{ plainNode 1 false 0 with isFixed := true },
      { plainNode 2 false 0 with isFixed := true },
      { plainNode 3 false 0 with force := ⟨10, 0, 0⟩ }].filter (fun n => n.isFixed)) =
      [{ plainNode 1 false 0 with isFixed := true },
       { plainNode 2 false 0 with isFixed := true }] := rfl
  have h := calculateMissingForces_spec 1
    [{ plainNode 1 false 0 with isFixed := true },
     { plainNode 2 false 0 with isFixed := true },
     { plainNode 3 false 0 with force := ⟨10, 0, 0⟩ }]
  have hne : ([{ plainNode 1 false 0 with isFixed := true },
      { plainNode 2 false 0 with isFixed := true },
      { plainNode 3 false 0 with force := ⟨10, 0, 0⟩ }].filter (fun n => n.isFixed)) ≠ [] := by
    rw [hfil]
    intro hc
    exact List.cons_ne_nil _ _ hc
  obtain ⟨h1, h2, h3⟩ := h.2.2 hne
  have hrf : (PhysicsEngine.calculateMissingForces
      [{ plainNode 1 false 0 with isFixed := true },
       { plainNode 2 false 0 with isFixed := true },
       { plainNode 3 false 0 with force := ⟨10, 0, 0⟩ }]).reactionForce = ⟨-10, 0, 0⟩ := by
    rw [h1]
    show Vec3.neg (Vec3.add ⟨10, 0, 0⟩ Vec3.zero) = _
    simp only [Vec3.neg, Vec3.add, Vec3.zero, Vec3.mk.injEq]
    norm_num
  have hrp : (PhysicsEngine.calculateMissingForces
      [{ plainNode 1 false 0 with isFixed := true },
       { plainNode 2 false 0 with isFixed := true },
       { plainNode 3 false 0 with force := ⟨10, 0, 0⟩ }]).reactionPerNode = ⟨-5, 0, 0⟩ := by
    rw [h2, hrf, hfil]
    simp only [Vec3.divScalar, Vec3.smul, Vec3.mk.injEq]
    norm_num
  refine ⟨hne, hrf, hrp, ?_⟩
  intro x hx hxf
  rw [h3 x hx hxf, hrp]

/-! ### Claim C5: `checkEquilibrium` -/

theorem rat_sqrt_lt_iff (q c : ℚ) (hc : 0 < c) :
    Real.sqrt (q : ℝ) < (c : ℝ) ↔ q < c ^ 2 := by
  rw [Real.sqrt_lt' (by exact_mod_cast hc)]
  constructor
  · intro h
    exact_mod_cast h
  · intro h
    exact_mod_cast h

/-- C5: `checkEquilibrium()` returns the net force summed over all nodes,
the net moment about the center of gravity `Σ(mᵢ pᵢ) / Σ mᵢ` (zero vector
when there are no nodes), and `isEquilibrium` holds exactly when both the
net-force and net-moment magnitudes are below the 0.01 tolerance. -/
theorem checkEquilibrium_spec (nodes : List (Joiner ℚ))
    (hm : ∀ n ∈ nodes, 0 < n.mass) :
    (PhysicsEngine.checkEquilibrium nodes).netForce =
      Vec3.sum (nodes.map fun n => n.force) ∧
    (PhysicsEngine.checkEquilibrium nodes).netMoment =
      Vec3.sum (nodes.map fun n =>
        Vec3.cross (Vec3.sub n.position (PhysicsEngine.calculateCenterOfGravity nodes).1)
          n.force) ∧
    (PhysicsEngine.calculateCenterOfGravity nodes).1 =
      (if nodes = [] then Vec3.zero
       else Vec3.divScalar (weightedPositionSum nodes) (totalMassOf nodes)) ∧
    ((PhysicsEngine.checkEquilibrium nodes).isEquilibrium = true ↔
      Real.sqrt ((Vec3.lengthSq (PhysicsEngine.checkEquilibrium nodes).netForce : ℚ) : ℝ) <
        ((equilibriumTolerance : ℚ) : ℝ) ∧
      Real.sqrt ((Vec3.lengthSq (PhysicsEngine.checkEquilibrium nodes).netMoment : ℚ) : ℝ) <
        ((equilibriumTolerance : ℚ) : ℝ)) := by
  have htolpos : (0 : ℚ) < equilibriumTolerance := by norm_num [equilibriumTolerance]
  by_cases hnil : nodes = []
  · subst hnil
    refine ⟨rfl, rfl, rfl, ?_⟩
    have hres : PhysicsEngine.checkEquilibrium ([] : List (Joiner ℚ)) =
        { isEquilibrium := true, netForce := Vec3.zero, netMoment := Vec3.zero } := rfl
    rw [hres]
    simp only [true_iff]
    constructor
    · rw [rat_sqrt_lt_iff _ _ htolpos]
      norm_num [Vec3.lengthSq, Vec3.zero, equilibriumTolerance]
    · rw [rat_sqrt_lt_iff _ _ htolpos]
      norm_num [Vec3.lengthSq, Vec3.zero, equilibriumTolerance]
  · have hmass : 0 < totalMassOf nodes := by
      refine List.sum_pos _ ?_ ?_
      · intro q hq
        rcases List.mem_map.mp hq with ⟨n, hn, rfl⟩
        exact hm n hn
      · intro hcon
        exact hnil (List.map_eq_nil.mp hcon)
    have hcog : PhysicsEngine.calculateCenterOfGravity nodes =
        (Vec3.divScalar (weightedPositionSum nodes) (totalMassOf nodes), totalMassOf nodes) := by
      rw [PhysicsEngine.calculateCenterOfGravity]
      simp only [if_neg hnil, if_pos hmass]
    have hres : PhysicsEngine.checkEquilibrium nodes =
        { isEquilibrium := decide
            (Vec3.lengthSq (Vec3.sum (nodes.map fun n => n.force)) < equilibriumTolerance ^ 2 ∧
             Vec3.lengthSq (Vec3.sum (nodes.map fun n =>
               Vec3.cross (Vec3.sub n.position
                 (PhysicsEngine.calculateCenterOfGravity nodes).1) n.force)) <
               equilibriumTolerance ^ 2),
          netForce := Vec3.sum (nodes.map fun n => n.force),
          netMoment := Vec3.sum (nodes.map fun n =>
            Vec3.cross (Vec3.sub n.position
              (PhysicsEngine.calculateCenterOfGravity nodes).1) n.force) } := by
      rw [PhysicsEngine.checkEquilibrium]
      simp only [if_neg hnil]
    refine ⟨by rw [hres], by rw [hres], by rw [hcog, if_neg hnil], ?_⟩
    rw [hres]
    simp only [decide_eq_true_eq]
    rw [rat_sqrt_lt_iff _ _ htolpos, rat_sqrt_lt_iff _ _ htolpos]

/-- Witness for `checkEquilibrium_spec`: two nodes with opposite forces
`(5,0,0)` and `(-5,0,0)` along their common axis are reported in
equilibrium. -/
theorem checkEquilibrium_spec_witness :
    (∀ n ∈ [{ plainNode 1 false 0 with force := ⟨5, 0, 0⟩ },
            { plainNode 2 false 0 with position := ⟨1, 0, 0⟩, force := ⟨-5, 0, 0⟩ }],
      (0 : ℚ) < n.mass) ∧
    (PhysicsEngine.checkEquilibrium
      [{ plainNode 1 false 0 with force := ⟨5, 0, 0⟩ },
       { plainNode 2 false 0 with position := ⟨1, 0, 0⟩, force := ⟨-5, 0, 0⟩ }]).isEquilibrium =
      true := by
  have hm : ∀ n ∈ [{ plainNode 1 false 0 with force := ⟨5, 0, 0⟩ },
      { plainNode 2 false 0 with position := ⟨1, 0, 0⟩, force := ⟨-5, 0, 0⟩ }],
      (0 : ℚ) < n.mass := by
    intro n hn
    rcases List.mem_cons.mp hn with h | h
    · rw [h]
      norm_num [plainNode]
    · rcases List.mem_cons.mp h with h2 | h2
      · rw [h2]
        norm_num [plainNode]
      · simp at h2
  have h := checkEquilibrium_spec _ hm
  refine ⟨hm, ?_⟩
  have hnf : (PhysicsEngine.checkEquilibrium
      [{ plainNode 1 false 0 with force := ⟨5, 0, 0⟩ },
       { plainNode 2 false 0 with position := ⟨1, 0, 0⟩, force := ⟨-5, 0, 0⟩ }]).netForce =
      Vec3.zero := by
    rw [h.1]
    simp only [List.map_cons, List.map_nil, Vec3.sum, List.foldr, Vec3.add, Vec3.zero,
      Vec3.mk.injEq]
    norm_num
  have hcog : (PhysicsEngine.calculateCenterOfGravity
      [{ plainNode 1 false 0 with force := ⟨5, 0, 0⟩ },
       { plainNode 2 false 0 with position := ⟨1, 0, 0⟩, force := ⟨-5, 0, 0⟩ }]).1 =
      ⟨1 / 2, 0, 0⟩ := by
    rw [h.2.2.1, if_neg (by simp)]
    simp only [weightedPositionSum, totalMassOf, plainNode, List.map_cons, List.map_nil,
      List.sum_cons, List.sum_nil, Vec3.sum, List.foldr, Vec3.add, Vec3.zero,
      Vec3.divScalar, Vec3.smul, Vec3.mk.injEq]
    norm_num
  have hnm : (PhysicsEngine.checkEquilibrium
      [{ plainNode 1 false 0 with force := ⟨5, 0, 0⟩ },
       { plainNode 2 false 0 with position := ⟨1, 0, 0⟩, force := ⟨-5, 0, 0⟩ }]).netMoment =
      Vec3.zero := by
    rw [h.2.1, hcog]
    simp only [List.map_cons, List.map_nil, plainNode, Vec3.sum, List.foldr, Vec3.cross,
      Vec3.sub, Vec3.add, Vec3.zero, Vec3.mk.injEq]
    norm_num
  refine (h.2.2.2).mpr ⟨?_, ?_⟩
  · rw [hnf]
    rw [rat_sqrt_lt_iff _ _ (by norm_num [equilibriumTolerance])]
    norm_num [Vec3.lengthSq, Vec3.zero, equilibriumTolerance]
  · rw [hnm]
    rw [rat_sqrt_lt_iff _ _ (by norm_num [equilibriumTolerance])]
    norm_num [Vec3.lengthSq, Vec3.zero, equilibriumTolerance]

/-! ### Claim C7: `dampenMotion` -/

theorem one_smul_vec (v : Vec3 ℚ) : Vec3.smul 1 v = v := by
  obtain ⟨x, y, z⟩ := v
  simp [Vec3.smul]

theorem smul_zero_vec (c : ℚ) : Vec3.smul c Vec3.zero = Vec3.zero := by
  simp only [Vec3.smul, Vec3.zero, Vec3.mk.injEq]
  norm_num

theorem smul_smul_vec (a b : ℚ) (v : Vec3 ℚ) :
    Vec3.smul a (Vec3.smul b v) = Vec3.smul (a * b) v := by
  simp only [Vec3.smul, Vec3.mk.injEq]
  refine ⟨by ring, by ring, by ring⟩

theorem lengthSq_zero_vec : Vec3.lengthSq (Vec3.zero : Vec3 ℚ) = 0 := by
  simp only [Vec3.lengthSq, Vec3.zero]
  norm_num

theorem lengthSq_smul (c : ℚ) (v : Vec3 ℚ) :
    Vec3.lengthSq (Vec3.smul c v) = c ^ 2 * Vec3.lengthSq v := by
  simp only [Vec3.lengthSq, Vec3.smul]
  ring

theorem lengthSq_nonneg (v : Vec3 ℚ) : 0 ≤ Vec3.lengthSq v := by
  simp only [Vec3.lengthSq]
  have hx := mul_self_nonneg v.x
  have hy := mul_self_nonneg v.y
  have hz := mul_self_nonneg v.z
  linarith

theorem friction_velocity (v : Vec3 ℚ) :
    Vec3.add v (Vec3.smul (1 / 10) (Vec3.smul (-1) v)) = Vec3.smul (9 / 10) v := by
  simp only [Vec3.add, Vec3.smul, Vec3.mk.injEq]
  refine ⟨by ring, by ring, by ring⟩

/-- C7 (counterexample): with zero force, velocity `(1,0,0)`, zero
acceleration and `deltaTime = 0.1`, the code leaves acceleration
`(-1/200, 0, 0)` — the lerp target is the `deltaTime`-scaled friction
vector — while the claimed lerp toward `frictionAcceleration = -velocity`
with factor `(k/2)·deltaTime` would give `(-1/20, 0, 0)`. -/
theorem dampenMotion_lerp_counterexample :
    (Joiner.dampenMotion (1 / 10)
        { plainNode 0 false 0 with velocity := ⟨1, 0, 0⟩ }).acceleration =
      ⟨-(1 / 200), 0, 0⟩ ∧
    Vec3.lerp (plainNode 0 false 0).acceleration (Vec3.smul (-1) ⟨1, 0, 0⟩)
        ((1 / 2) * (1 / 10)) = ⟨-(1 / 20), 0, 0⟩ ∧
    ((⟨-(1 / 200), 0, 0⟩ : Vec3 ℚ) ≠ ⟨-(1 / 20), 0, 0⟩) := by
  refine ⟨?_, ?_, ?_⟩
  · rw [Joiner.dampenMotion]
    rw [if_pos (show ({ plainNode 0 false 0 with
        velocity := ⟨1, 0, 0⟩ } : Joiner ℚ).force = Vec3.zero from rfl)]
    dsimp only
    rw [if_neg (by norm_num [Vec3.lengthSq, Vec3.add, Vec3.smul, plainNode])]
    simp only [plainNode, Vec3.lerp, Vec3.add, Vec3.smul, Vec3.sub, Vec3.zero, Vec3.mk.injEq]
    norm_num
  · simp only [plainNode, Vec3.lerp, Vec3.add, Vec3.smul, Vec3.sub, Vec3.zero, Vec3.mk.injEq]
    norm_num
  · intro h
    have := congrArg Vec3.x h
    norm_num at this

theorem dampen_vel_formula (n : Joiner ℚ) (hf : n.force = Vec3.zero) :
    (Joiner.dampenMotion (1 / 10) n).velocity =
      if Vec3.lengthSq (Vec3.smul (9 / 10) n.velocity) < (1 / 1000) ^ 2 then Vec3.zero
      else Vec3.smul (9 / 10) n.velocity := by
  rw [Joiner.dampenMotion, if_pos hf]
  dsimp only
  rw [show Vec3.add n.velocity (Vec3.smul (1 / 10) (Vec3.smul (-1) n.velocity)) =
      Vec3.smul (9 / 10) n.velocity from friction_velocity n.velocity]
  by_cases hc : Vec3.lengthSq (Vec3.smul (9 / 10) n.velocity) < (1 / 1000) ^ 2
  · simp only [if_pos hc]
  · simp only [if_neg hc]

theorem dampen_vel_zero (n : Joiner ℚ) (hf : n.force = Vec3.zero)
    (hv : n.velocity = Vec3.zero) :
    (Joiner.dampenMotion (1 / 10) n).velocity = Vec3.zero := by
  rw [dampen_vel_formula n hf, hv, smul_zero_vec]
  rw [if_pos (by rw [lengthSq_zero_vec]; norm_num)]

theorem dampenIter_force (dt : ℚ) : ∀ (k : Nat) (n : Joiner ℚ),
    (dampenIter dt k n).force = n.force := by
  intro k
  induction k with
  | zero => intro n; rfl
  | succ k ih =>
    intro n
    show (dampenIter dt k (Joiner.dampenMotion dt n)).force = n.force
    rw [ih, dampen_force]

theorem dampenIter_succ_out (dt : ℚ) : ∀ (k : Nat) (n : Joiner ℚ),
    dampenIter dt (k + 1) n = Joiner.dampenMotion dt (dampenIter dt k n) := by
  intro k
  induction k with
  | zero => intro n; rfl
  | succ k ih =>
    intro n
    show dampenIter dt (k + 1) (Joiner.dampenMotion dt n) = _
    rw [ih (Joiner.dampenMotion dt n)]
    rfl

theorem dampenIter_vel : ∀ (k : Nat) (n : Joiner ℚ), n.force = Vec3.zero →
    (dampenIter (1 / 10) k n).velocity = Vec3.smul ((9 / 10) ^ k) n.velocity ∨
    (dampenIter (1 / 10) k n).velocity = Vec3.zero := by
  intro k
  induction k with
  | zero =>
    intro n _
    left
    rw [pow_zero, one_smul_vec]
    rfl
  | succ k ih =>
    intro n hf
    have hf' : (Joiner.dampenMotion (1 / 10) n).force = Vec3.zero := by
      rw [dampen_force]
      exact hf
    rcases ih (Joiner.dampenMotion (1 / 10) n) hf' with h | h
    · rw [dampen_vel_formula n hf] at h
      by_cases hc : Vec3.lengthSq (Vec3.smul (9 / 10) n.velocity) < (1 / 1000) ^ 2
      · right
        show (dampenIter (1 / 10) k (Joiner.dampenMotion (1 / 10) n)).velocity = Vec3.zero
        rw [h, if_pos hc, smul_zero_vec]
      · left
        show (dampenIter (1 / 10) k (Joiner.dampenMotion (1 / 10) n)).velocity =
          Vec3.smul ((9 / 10) ^ (k + 1)) n.velocity
        rw [h, if_neg hc, smul_smul_vec, ← pow_succ]
    · right
      exact h

theorem dampenIter_zero_absorb : ∀ (j : Nat) (n : Joiner ℚ), n.force = Vec3.zero →
    n.velocity = Vec3.zero → (dampenIter (1 / 10) j n).velocity = Vec3.zero := by
  intro j
  induction j with
  | zero => intro n _ hv; exact hv
  | succ j ih =>
    intro n hf hv
    show (dampenIter (1 / 10) j (Joiner.dampenMotion (1 / 10) n)).velocity = Vec3.zero
    exact ih _ (by rw [dampen_force]; exact hf) (dampen_vel_zero n hf hv)

theorem dampenIter_add (dt : ℚ) : ∀ (b a : Nat) (n : Joiner ℚ),
    dampenIter dt (a + b) n = dampenIter dt b (dampenIter dt a n) := by
  intro b
  induction b with
  | zero => intro a n; rfl
  | succ b ih =>
    intro a n
    show dampenIter dt (a + b + 1) n = _
    rw [dampenIter_succ_out, ih a n, ← dampenIter_succ_out]

/-- C7 (amended): `dampenMotion(deltaTime)` is the identity on nodes with a
non-zero force.  With zero force it adds `frictionAcceleration * deltaTime`
(`frictionAcceleration = -velocity`, friction constant `k = 1`) to the
velocity and lerps the acceleration — toward that same `deltaTime`-scaled
friction vector, since `multiplyScalar` mutates it in place — with factor
`(k/2) * deltaTime`; when the resulting velocity magnitude is below `0.001`
the velocity snaps to zero and the acceleration is further lerped toward
zero with factor `deltaTime * 0.1`.  From zero force, repeated
`dampenMotion(0.1)` calls drive the velocity to exactly zero within a
bounded number of steps. -/
theorem dampenMotion_spec (deltaTime : ℚ) (n : Joiner ℚ) :
    (n.force ≠ Vec3.zero → Joiner.dampenMotion deltaTime n = n) ∧
    (n.force = Vec3.zero →
      (Real.sqrt ((Vec3.lengthSq (Vec3.add n.velocity
          (Vec3.smul deltaTime (Vec3.smul (-1) n.velocity))) : ℚ) : ℝ) <
          ((1 / 1000 : ℚ) : ℝ) →
        Joiner.dampenMotion deltaTime n =
          { n with velocity := Vec3.zero, acceleration := Vec3.lerp (Vec3.lerp n.acceleration (Vec3.smul deltaTime (Vec3.smul (-1) n.velocity)) ((1 / 2) * deltaTime)) Vec3.zero (deltaTime * (1 / 10)) }) ∧
      (¬Real.sqrt ((Vec3.lengthSq (Vec3.add n.velocity
          (Vec3.smul deltaTime (Vec3.smul (-1) n.velocity))) : ℚ) : ℝ) <
          ((1 / 1000 : ℚ) : ℝ) →
        Joiner.dampenMotion deltaTime n =
          { n with velocity := Vec3.add n.velocity (Vec3.smul deltaTime (Vec3.smul (-1) n.velocity)), acceleration := Vec3.lerp n.acceleration (Vec3.smul deltaTime (Vec3.smul (-1) n.velocity)) ((1 / 2) * deltaTime) })) ∧
    (n.force = Vec3.zero → ∃ N : Nat, ∀ k, N ≤ k →
      (dampenIter (1 / 10) k n).velocity = Vec3.zero) := by
  have hsqrt : ∀ q : ℚ, (Real.sqrt (q : ℝ) < ((1 / 1000 : ℚ) : ℝ)) ↔ q < (1 / 1000) ^ 2 :=
    fun q => rat_sqrt_lt_iff q (1 / 1000) (by norm_num)
  refine ⟨?_, ?_, ?_⟩
  · intro hf
    rw [Joiner.dampenMotion, if_neg hf]
  · intro hf
    constructor
    · intro hs
      rw [hsqrt] at hs
      rw [Joiner.dampenMotion, if_pos hf]
      dsimp only
      rw [if_pos hs]
    · intro hs
      rw [hsqrt] at hs
      rw [Joiner.dampenMotion, if_pos hf]
      dsimp only
      rw [if_neg hs]
  · intro hf
    have hL := lengthSq_nonneg n.velocity
    have hL1 : (0 : ℚ) < Vec3.lengthSq n.velocity + 1 := by linarith
    obtain ⟨m, hmlt⟩ := exists_pow_lt_of_lt_one
      (show (0 : ℚ) < (1 / 1000) ^ 2 / (Vec3.lengthSq n.velocity + 1) by positivity)
      (show (81 / 100 : ℚ) < 1 by norm_num)
    have hforce_iter : ∀ j, (dampenIter (1 / 10) j n).force = Vec3.zero := by
      intro j
      rw [dampenIter_force]
      exact hf
    have hscaled : (81 / 100 : ℚ) ^ m * (Vec3.lengthSq n.velocity + 1) < (1 / 1000) ^ 2 := by
      calc (81 / 100 : ℚ) ^ m * (Vec3.lengthSq n.velocity + 1)
          < ((1 / 1000) ^ 2 / (Vec3.lengthSq n.velocity + 1)) *
              (Vec3.lengthSq n.velocity + 1) := mul_lt_mul_of_pos_right hmlt hL1
        _ = (1 / 1000) ^ 2 := div_mul_cancel₀ _ (ne_of_gt hL1)
    have hm1 : (dampenIter (1 / 10) (m + 1) n).velocity = Vec3.zero := by
      rw [dampenIter_succ_out]
      rcases dampenIter_vel m n hf with h | h
      · rw [dampen_vel_formula _ (hforce_iter m), h, smul_smul_vec]
        rw [if_pos ?hcsmall]
        case hcsmall =>
          rw [lengthSq_smul]
          have hpowpos : (0 : ℚ) ≤ (81 / 100 : ℚ) ^ m :=
            pow_nonneg (by norm_num) m
          have heq : ((9 : ℚ) / 10 * (9 / 10) ^ m) ^ 2 =
              (81 / 100) * (81 / 100) ^ m := by
            rw [mul_pow, pow_right_comm]
            norm_num
          rw [heq]
          nlinarith [hscaled, hpowpos, hL]
      · exact dampen_vel_zero _ (hforce_iter m) h
    refine ⟨m + 1, ?_⟩
    intro k hk
    obtain ⟨j, rfl⟩ : ∃ j, k = (m + 1) + j := ⟨k - (m + 1), by omega⟩
    rw [dampenIter_add]
    exact dampenIter_zero_absorb j _ (hforce_iter (m + 1)) hm1

/-- Witness for `dampenMotion_spec`: zero force, velocity `(1,0,0)`,
`deltaTime = 0.1`: one call yields velocity `(9/10, 0, 0)` and acceleration
`(-1/200, 0, 0)`. -/
theorem dampenMotion_spec_witness :
    (({ plainNode 0 false 0 with velocity := ⟨1, 0, 0⟩ } : Joiner ℚ).force = Vec3.zero) ∧
    Joiner.dampenMotion (1 / 10) { plainNode 0 false 0 with velocity := ⟨1, 0, 0⟩ } =
      { plainNode 0 false 0 with velocity := ⟨9 / 10, 0, 0⟩, acceleration := ⟨-(1 / 200), 0, 0⟩ } := by
  refine ⟨rfl, ?_⟩
  have hns : ¬Real.sqrt ((Vec3.lengthSq (Vec3.add
      ({ plainNode 0 false 0 with velocity := ⟨1, 0, 0⟩ } : Joiner ℚ).velocity
      (Vec3.smul (1 / 10) (Vec3.smul (-1)
        ({ plainNode 0 false 0 with velocity := ⟨1, 0, 0⟩ } : Joiner ℚ).velocity))) : ℚ) : ℝ) <
      ((1 / 1000 : ℚ) : ℝ) := by
    rw [rat_sqrt_lt_iff _ _ (by norm_num)]
    norm_num [Vec3.lengthSq, Vec3.add, Vec3.smul, plainNode]
  rw [((dampenMotion_spec (1 / 10)
    { plainNode 0 false 0 with velocity := ⟨1, 0, 0⟩ }).2.1 rfl).2 hns]
  simp only [plainNode, Vec3.add, Vec3.smul, Vec3.lerp, Vec3.sub, Vec3.zero,
    Joiner.mk.injEq, Vec3.mk.injEq]
  norm_num

/-! ### Beam force classification (src/models/beam.js, `calculateForce`)

The beam classifier uses `normalize()` (a square root) and `Math.PI`, so
this part of the model lives over `ℝ`. -/

/-- `v.length()` over the reals. -/
noncomputable def lengthR (v : Vec3 ℝ) : ℝ := Real.sqrt (Vec3.lengthSq v)

open Classical in
/-- `v.normalize()` in three.js: `divideScalar(this.length() || 1)` — a
zero-length vector is divided by 1 and stays zero. -/
noncomputable def normalizeV (v : Vec3 ℝ) : Vec3 ℝ :=
  Vec3.divScalar v (if lengthR v = 0 then 1 else lengthR v)

/-- The unit direction from the start node to the end node. -/
noncomputable def beamDirection (b : BeamRec ℝ) : Vec3 ℝ :=
  normalizeV (Vec3.sub b.parents.2.position b.parents.1.position)

/-- `startProjection = startForce.dot(direction)`. -/
noncomputable def startProjectionOf (b : BeamRec ℝ) : ℝ :=
  Vec3.dot b.parents.1.force (beamDirection b)

/-- `endProjection = endForce.dot(direction)`. -/
noncomputable def endProjectionOf (b : BeamRec ℝ) : ℝ :=
  Vec3.dot b.parents.2.force (beamDirection b)

open Classical in
/-- `Beam.calculateForce()`: classify tension/compression/neutral from the
two force projections, then `stress = forceValue / (π((r₁+r₂)/2)²)` and
`strain = stress / youngsModulus`. -/
noncomputable def Beam.calculateForce (b : BeamRec ℝ) : BeamRec ℝ :=
  let startProjection := startProjectionOf b
  let endProjection := endProjectionOf b
  let classified : ForceType × ℝ :=
    if startProjection > 0 ∧ endProjection < 0 then
      (ForceType.tension, (|startProjection| + |endProjection|) / 2)
    else if startProjection < 0 ∧ endProjection > 0 then
      (ForceType.compression, (|startProjection| + |endProjection|) / 2)
    else (ForceType.neutral, 0)
  let area := Real.pi * ((b.startRadius + b.endRadius) / 2) ^ 2
  { b with forceType := classified.1, forceValue := classified.2,
           stress := classified.2 / area,
           strain := classified.2 / area / b.material.youngsModulus }

/-- C3: `calculateForce()` classifies from the projections of the endpoint
forces onto the unit beam direction — tension when `startProjection > 0 >
endProjection`, compression in the mirrored case, neutral otherwise — with
`forceValue = (|startProjection| + |endProjection|)/2` (0 when neutral),
`stress = forceValue / (π((startRadius+endRadius)/2)²)` and
`strain = stress / youngsModulus`. -/
theorem beam_calculateForce_spec (b : BeamRec ℝ) :
    (startProjectionOf b > 0 → endProjectionOf b < 0 →
      (Beam.calculateForce b).forceType = ForceType.tension ∧
      (Beam.calculateForce b).forceValue =
        (|startProjectionOf b| + |endProjectionOf b|) / 2) ∧
    (startProjectionOf b < 0 → endProjectionOf b > 0 →
      (Beam.calculateForce b).forceType = ForceType.compression ∧
      (Beam.calculateForce b).forceValue =
        (|startProjectionOf b| + |endProjectionOf b|) / 2) ∧
    (¬(startProjectionOf b > 0 ∧ endProjectionOf b < 0) →
     ¬(startProjectionOf b < 0 ∧ endProjectionOf b > 0) →
      (Beam.calculateForce b).forceType = ForceType.neutral ∧
      (Beam.calculateForce b).forceValue = 0) ∧
    (Beam.calculateForce b).stress =
      (Beam.calculateForce b).forceValue /
        (Real.pi * ((b.startRadius + b.endRadius) / 2) ^ 2) ∧
    (Beam.calculateForce b).strain =
      (Beam.calculateForce b).stress / b.material.youngsModulus := by
  refine ⟨?_, ?_, ?_, ?_, ?_⟩
  · intro h1 h2
    rw [Beam.calculateForce]
    dsimp only
    rw [if_pos ⟨h1, h2⟩]
    exact ⟨rfl, rfl⟩
  · intro h1 h2
    rw [Beam.calculateForce]
    dsimp only
    rw [if_neg (by intro hc; exact absurd hc.1 (not_lt.mpr (le_of_lt h1))), if_pos ⟨h1, h2⟩]
    exact ⟨rfl, rfl⟩
  · intro h1 h2
    rw [Beam.calculateForce]
    dsimp only
    rw [if_neg h1, if_neg h2]
    exact ⟨rfl, rfl⟩
  · rw [Beam.calculateForce]
  · rw [Beam.calculateForce]

/-- A beam between two nodes at the given positions carrying the given
forces (defaults as in the constructors). -/
noncomputable def mkBeamR (ps pe fs fe : Vec3 ℝ) : BeamRec ℝ :=
  { id := 0
    parents := ({ id := 1, isSelected := false, selectedIndex := 0, radius := 3 / 200,
                  mass := 100, position := ps, force := fs, acceleration := Vec3.zero,
                  velocity := Vec3.zero, isFixed := false },
                { id := 2, isSelected := false, selectedIndex := 0, radius := 3 / 200,
                  mass := 100, position := pe, force := fe, acceleration := Vec3.zero,
                  velocity := Vec3.zero, isFixed := false })
    length := 0
    startRadius := 1 / 200
    endRadius := 1 / 200
    material := { name := "Steel", density := 7850, youngsModulus := 200000000000,
                  tensileStrength := 400000000, compressiveStrength := 250000000,
                  shearStrength := 150000000 }
    stress := 0
    strain := 0
    forceType := ForceType.neutral
    forceValue := 0
    isSelected := false
    selectedIndex := 0 }

/-- Witness for `beam_calculateForce_spec`: nodes at `(0,0,0)` and `(1,0,0)`
with forces `(5,0,0)` and `(-5,0,0)` give tension of magnitude 5. -/
theorem beam_calculateForce_spec_witness :
    startProjectionOf (mkBeamR ⟨0, 0, 0⟩ ⟨1, 0, 0⟩ ⟨5, 0, 0⟩ ⟨-5, 0, 0⟩) > 0 ∧
    endProjectionOf (mkBeamR ⟨0, 0, 0⟩ ⟨1, 0, 0⟩ ⟨5, 0, 0⟩ ⟨-5, 0, 0⟩) < 0 ∧
    (Beam.calculateForce (mkBeamR ⟨0, 0, 0⟩ ⟨1, 0, 0⟩ ⟨5, 0, 0⟩ ⟨-5, 0, 0⟩)).forceType =
      ForceType.tension ∧
    (Beam.calculateForce (mkBeamR ⟨0, 0, 0⟩ ⟨1, 0, 0⟩ ⟨5, 0, 0⟩ ⟨-5, 0, 0⟩)).forceValue = 5 := by
  have hls : Vec3.lengthSq (Vec3.sub
      (mkBeamR ⟨0, 0, 0⟩ ⟨1, 0, 0⟩ ⟨5, 0, 0⟩ ⟨-5, 0, 0⟩).parents.2.position
      (mkBeamR ⟨0, 0, 0⟩ ⟨1, 0, 0⟩ ⟨5, 0, 0⟩ ⟨-5, 0, 0⟩).parents.1.position) = 1 := by
    simp only [mkBeamR, Vec3.sub, Vec3.lengthSq]
    norm_num
  have hlen : lengthR (Vec3.sub
      (mkBeamR ⟨0, 0, 0⟩ ⟨1, 0, 0⟩ ⟨5, 0, 0⟩ ⟨-5, 0, 0⟩).parents.2.position
      (mkBeamR ⟨0, 0, 0⟩ ⟨1, 0, 0⟩ ⟨5, 0, 0⟩ ⟨-5, 0, 0⟩).parents.1.position) = 1 := by
    rw [lengthR, hls, Real.sqrt_one]
  have hdir : beamDirection (mkBeamR ⟨0, 0, 0⟩ ⟨1, 0, 0⟩ ⟨5, 0, 0⟩ ⟨-5, 0, 0⟩) =
      ⟨1, 0, 0⟩ := by
    rw [beamDirection, normalizeV, hlen, if_neg one_ne_zero]
    simp only [mkBeamR, Vec3.divScalar, Vec3.smul, Vec3.sub, Vec3.mk.injEq]
    norm_num
  have hsp : startProjectionOf (mkBeamR ⟨0, 0, 0⟩ ⟨1, 0, 0⟩ ⟨5, 0, 0⟩ ⟨-5, 0, 0⟩) = 5 := by
    rw [startProjectionOf, hdir]
    simp only [mkBeamR, Vec3.dot]
    norm_num
  have hep : endProjectionOf (mkBeamR ⟨0, 0, 0⟩ ⟨1, 0, 0⟩ ⟨5, 0, 0⟩ ⟨-5, 0, 0⟩) = -5 := by
    rw [endProjectionOf, hdir]
    simp only [mkBeamR, Vec3.dot]
    norm_num
  have h := (beam_calculateForce_spec (mkBeamR ⟨0, 0, 0⟩ ⟨1, 0, 0⟩ ⟨5, 0, 0⟩ ⟨-5, 0, 0⟩)).1
    (by rw [hsp]; norm_num) (by rw [hep]; norm_num)
  refine ⟨by rw [hsp]; norm_num, by rw [hep]; norm_num, h.1, ?_⟩
  rw [h.2, hsp, hep]
  norm_num

/-- C10: a zero-length beam (identical endpoint positions) yields a defined
result: zero direction, zero projections, neutral classification with zero
force value, and zero stress and strain. -/
theorem beam_zero_length_spec (b : BeamRec ℝ)
    (h : b.parents.1.position = b.parents.2.position) :
    beamDirection b = Vec3.zero ∧
    startProjectionOf b = 0 ∧ endProjectionOf b = 0 ∧
    (Beam.calculateForce b).forceType = ForceType.neutral ∧
    (Beam.calculateForce b).forceValue = 0 ∧
    (Beam.calculateForce b).stress = 0 ∧
    (Beam.calculateForce b).strain = 0 := by
  have hsub : Vec3.sub b.parents.2.position b.parents.1.position = Vec3.zero := by
    rw [h]
    simp only [Vec3.sub, Vec3.zero, Vec3.mk.injEq]
    norm_num
  have hdir : beamDirection b = Vec3.zero := by
    rw [beamDirection, hsub, normalizeV]
    split
    · simp only [Vec3.divScalar, Vec3.smul, Vec3.zero, Vec3.mk.injEq]
      norm_num
    · simp only [Vec3.divScalar, Vec3.smul, Vec3.zero, Vec3.mk.injEq]
      norm_num
  have hsp : startProjectionOf b = 0 := by
    rw [startProjectionOf, hdir]
    simp only [Vec3.dot, Vec3.zero]
    ring
  have hep : endProjectionOf b = 0 := by
    rw [endProjectionOf, hdir]
    simp only [Vec3.dot, Vec3.zero]
    ring
  have hneu := (beam_calculateForce_spec b).2.2.1
    (by rw [hsp]; intro hc; exact lt_irrefl 0 hc.1)
    (by rw [hsp]; intro hc; exact lt_irrefl 0 hc.1)
  have hstress := (beam_calculateForce_spec b).2.2.2.1
  have hstrain := (beam_calculateForce_spec b).2.2.2.2
  refine ⟨hdir, hsp, hep, hneu.1, hneu.2, ?_, ?_⟩
  · rw [hstress, hneu.2, zero_div]
  · rw [hstrain, hstress, hneu.2, zero_div, zero_div]

/-- Witness for `beam_zero_length_spec`: both endpoints at the origin. -/
theorem beam_zero_length_spec_witness :
    (mkBeamR ⟨0, 0, 0⟩ ⟨0, 0, 0⟩ ⟨5, 0, 0⟩ ⟨5, 0, 0⟩).parents.1.position =
      (mkBeamR ⟨0, 0, 0⟩ ⟨0, 0, 0⟩ ⟨5, 0, 0⟩ ⟨5, 0, 0⟩).parents.2.position ∧
    (Beam.calculateForce (mkBeamR ⟨0, 0, 0⟩ ⟨0, 0, 0⟩ ⟨5, 0, 0⟩ ⟨5, 0, 0⟩)).forceType =
      ForceType.neutral ∧
    (Beam.calculateForce (mkBeamR ⟨0, 0, 0⟩ ⟨0, 0, 0⟩ ⟨5, 0, 0⟩ ⟨5, 0, 0⟩)).forceValue = 0 ∧
    (Beam.calculateForce (mkBeamR ⟨0, 0, 0⟩ ⟨0, 0, 0⟩ ⟨5, 0, 0⟩ ⟨5, 0, 0⟩)).stress = 0 ∧
    (Beam.calculateForce (mkBeamR ⟨0, 0, 0⟩ ⟨0, 0, 0⟩ ⟨5, 0, 0⟩ ⟨5, 0, 0⟩)).strain = 0 := by
  have h := beam_zero_length_spec (mkBeamR ⟨0, 0, 0⟩ ⟨0, 0, 0⟩ ⟨5, 0, 0⟩ ⟨5, 0, 0⟩) rfl
  exact ⟨rfl, h.2.2.2.1, h.2.2.2.2.1, h.2.2.2.2.2.1, h.2.2.2.2.2.2⟩
